import Mathlib

/-!
# GhostAgent-v2: formal model of the core request loop and its helpers

A shallow embedding of the parts of `src/ghost_agent` that the checked
properties talk about:

* `core/agent.py` — `process_rolling_window`, `_prune_context`, the output
  scrubbers, the context-overflow recovery, the per-turn tool dispatch loop
  (usage caps, redundancy guard, mutation bookkeeping, execution strikes);
* `core/llm.py` — `LLMClient.chat_completion` routing (vision / worker /
  swarm pools and the main retry loop) and `get_embeddings`;
* `tools/file_system.py` — `_get_safe_path` and the file tools built on it.

Python strings are modelled as Lean `String` (or `List Char` where character
scanning matters); dictionaries carrying messages become the `Msg` structure;
network and tool side effects are oracle parameters; exceptions become
explicit `Except` values.
-/

namespace GhostVerify

/-! ## Basic string helpers shared by several components -/

/-- Python whitespace as used by `\s`, `str.strip()` and friends
(restricted to the ASCII whitespace characters that can occur here). -/
def pyWhite (c : Char) : Bool :=
  c == ' ' || c == '\t' || c == '\n' || c == '\r' || c == '\x0b' || c == '\x0c'

/-- `needle.isPrefixOf hay` on characters, case-insensitively
(both sides lowered, matching Python's `.lower()` comparisons). -/
def isPrefixCI (needle hay : List Char) : Bool :=
  (needle.map Char.toLower).isPrefixOf (hay.map Char.toLower)

/-- Python `needle in hay` on character lists. -/
def listContains (needle : List Char) : List Char → Bool
  | [] => needle.isEmpty
  | c :: cs => needle.isPrefixOf (c :: cs) || listContains needle cs

/-- Python `needle in hay` on strings. -/
def strContains (hay needle : String) : Bool :=
  listContains needle.toList hay.toList

/-- Python `needle in hay.lower()` for a needle that is already lowercase. -/
def strContainsLower (hay needle : String) : Bool :=
  listContains needle.toList (hay.toList.map Char.toLower)

/-- Python `s.strip()` on character lists. -/
def pyStrip (s : List Char) : List Char :=
  ((s.dropWhile pyWhite).reverse.dropWhile pyWhite).reverse

/-- Python `s.strip()` on strings. -/
def pyStripStr (s : String) : String := String.mk (pyStrip s.toList)

/-- Python `s[:n]` on strings. -/
def pyTake (n : Nat) (s : String) : String := String.mk (s.toList.take n)

/-- Python `s[-n:]` on strings (for `n ≤ len s`). -/
def pyTakeLast (n : Nat) (s : String) : String :=
  String.mk (s.toList.drop (s.toList.length - n))

/-- Python `s.replace("\r", "")`. -/
def stripCR (s : String) : String := String.mk (s.toList.filter (fun c => c != '\r'))

/-- Python `s.lower()`. -/
def pyLower (s : String) : String := String.mk (s.toList.map Char.toLower)

/-! ## Messages and token estimation

A chat message dict `{role, content, name?, tool_call_id?}`
(`core/agent.py` reads exactly these keys on history messages). -/

structure Msg where
  role : String
  content : String
  name : String := ""
  toolCallId : String := ""
deriving DecidableEq, Repr

/-- `utils/token_counter.py`, `estimate_tokens`, fallback branch (no tokenizer
loaded): `len(text) // 3`, and `0` for the empty string (also `0 // 3`).
The theorems about the context-window functions are stated for an arbitrary
estimator `tok`, covering the loaded-tokenizer branch as well; this concrete
fallback is used by witnesses and counterexamples. -/
def estimateTokens (s : String) : Nat := s.length / 3

/-! ## `GhostAgent.process_rolling_window` (core/agent.py lines 105–123) -/

/-- The inner `for msg in reversed(raw_history)` walk: include messages while
the running token count stays within `maxTokens`, stop at the first overflow
(`break`). The input list is the reversed non-system history. -/
def rollingTake (tok : String → Nat) (maxTokens : Nat) : Nat → List Msg → List Msg
  | _, [] => []
  | cur, m :: rest =>
    if cur + tok m.content > maxTokens then []
    else m :: rollingTake tok maxTokens (cur + tok m.content) rest

/-- `process_rolling_window(messages, max_tokens)`: keep all system messages,
then fill the remaining budget with the newest non-system messages, returned
in chronological order. `tok` is `estimate_tokens`. -/
def processRollingWindow (tok : String → Nat) (messages : List Msg) (maxTokens : Nat) :
    List Msg :=
  if messages = [] then []
  else
    let systemMsgs := messages.filter (fun m => m.role == "system")
    let rawHistory := messages.filter (fun m => !(m.role == "system"))
    let base := (systemMsgs.map (fun m => tok m.content)).sum
    systemMsgs ++ (rollingTake tok maxTokens base rawHistory.reverse).reverse

/-! ## `GhostAgent._prune_context` (core/agent.py lines 125–162) -/

/-- `next((m for m in reversed(messages) if m.get("role") == "user"), None)`. -/
def lastUser (messages : List Msg) : Option Msg :=
  messages.reverse.find? (fun m => m.role == "user")

/-- The `for m in reversed(messages)` loop of `_prune_context`: skip system
messages, append the reserved last user message without charging the budget,
charge other messages against the budget, `break` at the first overflow.
The input list is `messages.reverse`. -/
def pruneTake (tok : String → Nat) (lastU : Option Msg) : Nat → List Msg → List Msg
  | _, [] => []
  | budget, m :: rest =>
    if m.role == "system" then pruneTake tok lastU budget rest
    else if some m == lastU then m :: pruneTake tok lastU budget rest
    else if tok m.content ≤ budget then
      m :: pruneTake tok lastU (budget - tok m.content) rest
    else []

/-- `_prune_context(messages, max_tokens)`. Under budget the list is returned
untouched; otherwise system messages are kept, a 500-token buffer plus the
last user message are reserved, and the rest of the budget is filled from the
newest messages backwards. -/
def pruneContext (tok : String → Nat) (messages : List Msg) (maxTokens : Nat) :
    List Msg :=
  let current := (messages.map (fun m => tok m.content)).sum
  if current < maxTokens then messages
  else
    let systemMsgs := messages.filter (fun m => m.role == "system")
    let lastU := lastUser messages
    let base := (systemMsgs.map (fun m => tok m.content)).sum +
      (match lastU with | some u => tok u.content | none => 0)
    -- `remaining_budget = max_tokens - base_tokens - 500`; `if remaining_budget < 0`
    if maxTokens < base + 500 then
      systemMsgs ++ (match lastU with | some u => [u] | none => [])
    else
      systemMsgs ++ (pruneTake tok lastU (maxTokens - base - 500) messages.reverse).reverse

/-! ### Lemmas about the rolling window -/

theorem rollingTake_prefix_of_le (tok : String → Nat) {m1 m2 : Nat} (h : m1 ≤ m2)
    (cur : Nat) (l : List Msg) :
    rollingTake tok m1 cur l <+: rollingTake tok m2 cur l := by
  induction l generalizing cur with
  | nil => simp [rollingTake]
  | cons a t ih =>
    simp only [rollingTake]
    by_cases h1 : cur + tok a.content > m1
    · simp only [if_pos h1]
      exact List.nil_prefix
    · have h2 : ¬ cur + tok a.content > m2 := by
        intro hgt
        exact h1 (lt_of_le_of_lt h hgt)
      simp only [if_neg h1, if_neg h2]
      exact List.cons_prefix_cons.mpr ⟨rfl, ih _⟩

theorem rollingTake_prefix (tok : String → Nat) (mt cur : Nat) (l : List Msg) :
    rollingTake tok mt cur l <+: l := by
  induction l generalizing cur with
  | nil => simp [rollingTake]
  | cons a t ih =>
    simp only [rollingTake]
    split
    · exact List.nil_prefix
    · exact List.cons_prefix_cons.mpr ⟨rfl, ih _⟩

/-- **C7**: `process_rolling_window` is monotone in the budget — for
`m1 ≤ m2` its output at `m1` is a subsequence of its output at `m2` — and for
every budget it keeps every system message and the retained non-system
messages are a contiguous suffix of the non-system history. Stated for any
token estimator `tok` (either branch of `estimate_tokens`). -/
theorem rolling_window_monotone (tok : String → Nat) (messages : List Msg)
    {m1 m2 : Nat} (h : m1 ≤ m2) :
    (processRollingWindow tok messages m1).Sublist (processRollingWindow tok messages m2)
    ∧ (∀ b : Nat, ∀ m ∈ messages, m.role = "system" →
        m ∈ processRollingWindow tok messages b)
    ∧ (∀ b : Nat, ∃ t, processRollingWindow tok messages b
          = messages.filter (fun m => m.role == "system") ++ t
        ∧ t <:+ messages.filter (fun m => !(m.role == "system"))) := by
  refine ⟨?_, ?_, ?_⟩
  · by_cases hm : messages = []
    · simp [processRollingWindow, hm]
    · simp only [processRollingWindow, if_neg hm]
      refine List.Sublist.append_left ?_ _
      exact ((rollingTake_prefix_of_le tok h _ _).sublist).reverse
  · intro b m hmem hrole
    have hm : messages ≠ [] := by rintro rfl; simp at hmem
    simp only [processRollingWindow, if_neg hm]
    refine List.mem_append_left _ ?_
    simp only [List.mem_filter]
    exact ⟨hmem, by simp [hrole]⟩
  · intro b
    by_cases hm : messages = []
    · exact ⟨[], by simp [processRollingWindow, hm]⟩
    · refine ⟨(rollingTake tok b
        ((messages.filter (fun m => m.role == "system")).map (fun m => tok m.content)).sum
        (messages.filter (fun m => !(m.role == "system"))).reverse).reverse,
        by simp [processRollingWindow, if_neg hm], ?_⟩
      have hp := rollingTake_prefix tok b
        ((messages.filter (fun m => m.role == "system")).map (fun m => tok m.content)).sum
        (messages.filter (fun m => !(m.role == "system"))).reverse
      have hs := List.reverse_suffix.mpr hp
      rwa [List.reverse_reverse] at hs

/-- Witness for C7 at a concrete input: two messages, budgets `0 ≤ 1`. -/
theorem rolling_window_monotone_witness :
    (processRollingWindow estimateTokens
        [⟨"system", "s", "", ""⟩, ⟨"user", "hello", "", ""⟩] 0).Sublist
      (processRollingWindow estimateTokens
        [⟨"system", "s", "", ""⟩, ⟨"user", "hello", "", ""⟩] 1) :=
  (rolling_window_monotone estimateTokens _ (by decide)).1

/-! ### Lemmas about `_prune_context` -/

theorem pruneTake_sublist_filter (tok : String → Nat) (lastU : Option Msg)
    (budget : Nat) (l : List Msg) :
    (pruneTake tok lastU budget l).Sublist
      (l.filter (fun m => !(m.role == "system"))) := by
  induction l generalizing budget with
  | nil => simp [pruneTake]
  | cons a t ih =>
    cases hsb : (a.role == "system") with
    | true => simpa [pruneTake, hsb, List.filter_cons] using ih budget
    | false =>
      simp only [pruneTake, hsb, Bool.false_eq_true, if_false, List.filter_cons,
        Bool.not_false, if_true]
      cases hlb : (some a == lastU) with
      | true =>
        simp only [hlb, if_true]
        exact (ih budget).cons₂ a
      | false =>
        simp only [hlb, Bool.false_eq_true, if_false]
        split
        · exact (ih _).cons₂ a
        · exact List.nil_sublist _

/-- **C6 (amended)**: `_prune_context` always keeps every system message; its
output is either the untouched input (under budget) or the system messages
followed by a chronologically ordered selection of non-system messages; and
the most recent user message is kept whenever it is the final message of the
list. (As stated in the spec the claim fails: when a non-system message that
follows the last user message overflows the budget, the reverse walk `break`s
before reaching the last user message and drops it — see
`prune_context_drops_last_user`.) -/
theorem prune_context_guarantees (tok : String → Nat) (messages : List Msg)
    (maxTokens : Nat) :
    (∀ m ∈ messages, m.role = "system" → m ∈ pruneContext tok messages maxTokens)
    ∧ (pruneContext tok messages maxTokens = messages
       ∨ ∃ t, pruneContext tok messages maxTokens
            = messages.filter (fun m => m.role == "system") ++ t
          ∧ t.Sublist (messages.filter (fun m => !(m.role == "system"))))
    ∧ (∀ init u, messages = init ++ [u] → u.role = "user" →
        u ∈ pruneContext tok messages maxTokens) := by
  refine ⟨?_, ?_, ?_⟩
  · intro m hmem hrole
    simp only [pruneContext]
    split
    · exact hmem
    · split <;>
      · refine List.mem_append_left _ ?_
        simp only [List.mem_filter]
        exact ⟨hmem, by simp [hrole]⟩
  · simp only [pruneContext]
    split
    · exact Or.inl rfl
    · split
      · rename_i hbudget
        refine Or.inr ⟨_, rfl, ?_⟩
        cases hu : lastUser messages with
        | none => simp [hu]
        | some u =>
          simp only [hu]
          rw [List.singleton_sublist, List.mem_filter]
          have hu' : messages.reverse.find? (fun m => m.role == "user") = some u := by
            simpa [lastUser] using hu
          have hmem : u ∈ messages := by
            simpa [List.mem_reverse] using List.mem_of_find?_eq_some hu'
          have hrole := List.find?_some hu'
          refine ⟨hmem, ?_⟩
          have hr : u.role = "user" := by simpa using hrole
          simp [hr]
      · refine Or.inr ⟨_, rfl, ?_⟩
        have h1 := pruneTake_sublist_filter tok (lastUser messages)
          (maxTokens -
            (((messages.filter (fun m => m.role == "system")).map
              (fun m => tok m.content)).sum +
              (match lastUser messages with | some u => tok u.content | none => 0)) - 500)
          messages.reverse
        rw [List.filter_reverse] at h1
        have h2 := h1.reverse
        rwa [List.reverse_reverse] at h2
  · intro init u hmsgs hrole
    subst hmsgs
    have hlu : lastUser (init ++ [u]) = some u := by
      simp [lastUser, List.find?, hrole]
    have hns : (u.role == "system") = false := by rw [hrole]; decide
    simp only [pruneContext, hlu]
    split
    · exact List.mem_append_right _ (by simp)
    · split
      · exact List.mem_append_right _ (by simp)
      · refine List.mem_append_right _ ?_
        rw [List.reverse_append]
        simp only [List.reverse_cons, List.reverse_nil, List.nil_append,
          List.singleton_append, pruneTake, hns, Bool.false_eq_true, if_false,
          beq_self_eq_true, if_true, if_pos]
        simp

/-- Witness for C6 (amended) at a concrete input: the trailing user message
is kept. -/
theorem prune_context_guarantees_witness :
    (⟨"user", "hi", "", ""⟩ : Msg) ∈ pruneContext estimateTokens
      [⟨"system", "s", "", ""⟩, ⟨"user", "hi", "", ""⟩] 100 :=
  (prune_context_guarantees estimateTokens _ 100).2.2
    [⟨"system", "s", "", ""⟩] ⟨"user", "hi", "", ""⟩ rfl rfl

/-- A 1500-character assistant message: 500 estimated tokens under the
fallback estimator. -/
def bigContent : String := String.mk (List.replicate 1500 'a')

/-- Concrete history: system, then the last user message, then a huge
assistant message that arrived after it. -/
def pruneCexMsgs : List Msg :=
  [⟨"system", "", "", ""⟩, ⟨"user", "u", "", ""⟩, ⟨"assistant", bigContent, "", ""⟩]

set_option maxRecDepth 40000 in
/-- **C6 counterexample**: with budget 500 the history is over budget, the
remaining budget after the 500-token safety buffer is 0, and the reverse walk
`break`s on the oversized assistant message *before* reaching the last user
message — so the pruned list does not contain the last user message even
though one exists. -/
theorem prune_context_drops_last_user :
    (⟨"user", "u", "", ""⟩ : Msg) ∈ pruneCexMsgs
    ∧ Msg.role ⟨"user", "u", "", ""⟩ = "user"
    ∧ (⟨"user", "u", "", ""⟩ : Msg) ∉ pruneContext estimateTokens pruneCexMsgs 500 := by
  refine ⟨by simp [pruneCexMsgs], rfl, ?_⟩
  have h : pruneContext estimateTokens pruneCexMsgs 500 = [⟨"system", "", "", ""⟩] := by
    decide
  rw [h]
  decide

/-! ## The final-output scrubber (core/agent.py lines 889–902)

Each `re.sub(pattern, '', content)` is modelled by a hand-compiled matcher
for its concrete pattern plus a generic left-to-right scan.  All of the
patterns can only match a non-empty stretch of characters, so a scan that
skips a reported match always advances; the scans below carry the input
length as structural fuel, which each step consumes exactly one unit of. -/

/-- `re.sub(pattern, '', s)` scan for an unanchored pattern: at each position
`tryMatch` reports the length of the (unique, leftmost-resolved) match
starting there, if any; a match is skipped, other characters are kept.
`fuel` is instantiated with the input length (each step consumes ≥ 1 char). -/
def subAllGo (tryMatch : List Char → Option Nat) : Nat → List Char → List Char
  | _, [] => []
  | 0, s => s
  | fuel + 1, c :: cs =>
    match tryMatch (c :: cs) with
    | some n => subAllGo tryMatch fuel (cs.drop (n - 1))
    | none => c :: subAllGo tryMatch fuel cs

def subAll (tryMatch : List Char → Option Nat) (s : List Char) : List Char :=
  subAllGo tryMatch s.length s

/-- `re.sub` scan for a `(?m)^`-anchored pattern: `tryMatch` is consulted
only at line starts (string start, or right after a newline — also the case
right after a skipped match whose last character was a newline). -/
def subAllMGo (tryMatch : List Char → Option Nat) : Nat → Bool → List Char → List Char
  | _, _, [] => []
  | 0, _, s => s
  | fuel + 1, bol, c :: cs =>
    match (if bol then tryMatch (c :: cs) else none) with
    | some n =>
        subAllMGo tryMatch fuel (((c :: cs).take n).getLast? == some '\n') (cs.drop (n - 1))
    | none => c :: subAllMGo tryMatch fuel (c == '\n') cs

def subAllM (tryMatch : List Char → Option Nat) (s : List Char) : List Char :=
  subAllMGo tryMatch s.length true s

/-- Index just past the first occurrence of `needle` in `s` (both sides
lowered when `ci`): the closing literal found by a lazy `.*?` under
`re.DOTALL`. -/
def findEnd (ci : Bool) (needle : List Char) : List Char → Option Nat
  | [] => if needle.isEmpty then some 0 else none
  | c :: cs =>
    if (if ci then isPrefixCI needle (c :: cs) else needle.isPrefixOf (c :: cs)) then
      some needle.length
    else
      match findEnd ci needle cs with
      | some k => some (k + 1)
      | none => none

/-- Matcher for `open.*?(?:close|$)` under `re.DOTALL` (and `re.IGNORECASE`
when `ci`); when `closeRequired` the `|$` alternative is absent
(`<tool_call>.*?</tool_call>`). -/
def tryBlock (ci : Bool) (op cl : List Char) (closeRequired : Bool)
    (s : List Char) : Option Nat :=
  if (if ci then isPrefixCI op s else op.isPrefixOf s) then
    match findEnd ci cl (s.drop op.length) with
    | some k => some (op.length + k)
    | none => if closeRequired then none else some s.length
  else none

/-- Length of the greedy `\s*` munch. -/
def munchWhite (s : List Char) : Nat := (s.takeWhile pyWhite).length

/-- The seven alternation branches of the task-tree line scrubber, exactly
the characters present in the source file (a mojibake rendering of the
original emoji). -/
def emojiAlts : List (List Char) :=
  [[Char.ofNat 0xf8ff, Char.ofNat 0xfc, Char.ofNat 0xee, Char.ofNat 0xd1],
   [Char.ofNat 0xf8ff, Char.ofNat 0xfc, Char.ofNat 0xfc, Char.ofNat 0xa2],
   [Char.ofNat 0x201a, Char.ofNat 0xe8, Char.ofNat 0x2265],
   [Char.ofNat 0x201a, Char.ofNat 0xfa, Char.ofNat 0xd6],
   [Char.ofNat 0x201a, Char.ofNat 0xf9, Char.ofNat 0xe5],
   [Char.ofNat 0xf8ff, Char.ofNat 0xfc, Char.ofNat 0xf5, Char.ofNat 0xeb],
   [Char.ofNat 0x201a, Char.ofNat 0xfb, Char.ofNat 0xf1]]

/-- Scan within the current line (`.` does not match `\n`) for `target`;
returns the length up to and including it. -/
def findCharInLine (target : Char) : List Char → Option Nat
  | [] => none
  | c :: cs =>
    if c == target then some 1
    else if c == '\n' then none
    else
      match findCharInLine target cs with
      | some k => some (k + 1)
      | none => none

/-- Matcher for `^\s*(?:…emoji…)\s*\[.*?\].*?\n?` at a line start: the lazy
`.*?\n?` tail matches the empty string plus an immediately following
newline, if present. -/
def tryEmojiLine (s : List Char) : Option Nat :=
  let w1 := munchWhite s
  let s1 := s.drop w1
  match emojiAlts.findSome?
      (fun a => if a.isPrefixOf s1 then some a.length else none) with
  | none => none
  | some el =>
    let s2 := s1.drop el
    let w2 := munchWhite s2
    let s3 := s2.drop w2
    if s3.head? = some '[' then
      match findCharInLine ']' (s3.drop 1) with
      | none => none
      | some k =>
        let base := w1 + el + w2 + 1 + k
        if (s.drop base).head? = some '\n' then some (base + 1) else some base
    else none

def statusAlts : List (List Char) :=
  ["IN_PROGRESS".toList, "READY".toList, "PENDING".toList,
   "DONE".toList, "FAILED".toList, "BLOCKED".toList]

/-- Scan within the current line for `\((?:IN_PROGRESS|…)\)`; returns the
length through the closing paren (the lazy `^.*?` picks the leftmost one). -/
def findStatusParen : List Char → Option Nat
  | [] => none
  | c :: cs =>
    if c == '\n' then none
    else
      match (if c == '(' then
          statusAlts.findSome? (fun a =>
            if (a ++ [')']).isPrefixOf cs then some (2 + a.length) else none)
        else none) with
      | some k => some k
      | none =>
        match findStatusParen cs with
        | some k => some (k + 1)
        | none => none

/-- Matcher for `^.*?\((?:IN_PROGRESS|READY|PENDING|DONE|FAILED|BLOCKED)\)\s*\n?`:
the greedy `\s*` swallows all following whitespace (newlines included),
after which `\n?` matches the empty string. -/
def tryStatusLine (s : List Char) : Option Nat :=
  match findStatusParen s with
  | none => none
  | some k => some (k + munchWhite (s.drop k))

/-- Matcher for `^\s*(?:\[)?task_\d+(?:\])?\s*\n?`. -/
def tryTaskLine (s : List Char) : Option Nat :=
  let w1 := munchWhite s
  let s1 := s.drop w1
  let br := if s1.head? = some '[' then 1 else 0
  let s2 := s1.drop br
  if ("task_".toList).isPrefixOf s2 then
    let s3 := s2.drop 5
    let d := (s3.takeWhile Char.isDigit).length
    if d = 0 then none
    else
      let s4 := s3.drop d
      let cb := if s4.head? = some ']' then 1 else 0
      some (w1 + br + 5 + d + cb + munchWhite (s4.drop cb))
  else none

def headerAlts : List (List Char) :=
  ["FOCUS TASK".toList, "ACTIVE STRATEGY & PLAN".toList,
   "PLAN".toList, "THOUGHT".toList]

/-- Matcher for `^\s*(?:FOCUS TASK|ACTIVE STRATEGY & PLAN|PLAN|THOUGHT):\s*`.
The trailing greedy `\s*` also swallows newlines. -/
def tryHeaderLine (s : List Char) : Option Nat :=
  let w1 := munchWhite s
  let s1 := s.drop w1
  match headerAlts.findSome? (fun a =>
      if (a ++ [':']).isPrefixOf s1 then some (a.length + 1) else none) with
  | none => none
  | some k => some (w1 + k + munchWhite (s1.drop k))

/-- `content.split(marker)[0]` when the marker occurs, `content` otherwise
(the guarded `if bleed_marker in content` split). -/
def takeBefore (marker : List Char) : List Char → List Char
  | [] => []
  | c :: cs => if marker.isPrefixOf (c :: cs) then [] else c :: takeBefore marker cs

/-- The system-prompt bleed markers, in source order. -/
def bleedMarkers : List (List Char) :=
  ["# Tools".toList, "<tools>".toList, "CRITICAL INSTRUCTION:".toList,
   "You may call one or more functions".toList,
   "\x7b\"type\": \"function\"".toList]

/-- The final-output scrubber (core/agent.py lines 891–902): bleed-marker
truncation, `<tool_call>`/`<tool_response>` block removal, execution-result
banner removal, the three task-tree line scrubbers, the stray-header
scrubber, and a final `strip()`, in source order. -/
def scrub (s : List Char) : List Char :=
  let s1 := bleedMarkers.foldl (fun acc m => takeBefore m acc) s
  let s2 := subAll (tryBlock true "<tool_call>".toList "</tool_call>".toList true) s1
  let s3 := subAll (tryBlock true "<tool_response>".toList "</tool_response>".toList false) s2
  let s4 := subAll (tryBlock false "--- EXECUTION RESULT ---".toList
    "------------------------".toList false) s3
  let s5 := subAllM tryEmojiLine s4
  let s6 := subAllM tryStatusLine s5
  let s7 := subAllM tryTaskLine s6
  let s8 := subAllM tryHeaderLine s7
  pyStrip s8

/-! ### Scrubber theorems -/

theorem subAllGo_length_le (t : List Char → Option Nat) :
    ∀ fuel s, (subAllGo t fuel s).length ≤ s.length := by
  intro fuel
  induction fuel with
  | zero => intro s; cases s <;> simp [subAllGo]
  | succ f ih =>
    intro s
    cases s with
    | nil => simp [subAllGo]
    | cons c cs =>
      cases ht : t (c :: cs) with
      | none =>
        simp only [subAllGo, ht, List.length_cons]
        exact Nat.succ_le_succ (ih cs)
      | some n =>
        simp only [subAllGo, ht, List.length_cons]
        calc (subAllGo t f (cs.drop (n - 1))).length
            ≤ (cs.drop (n - 1)).length := ih _
          _ ≤ cs.length := by simp [List.length_drop]
          _ ≤ cs.length + 1 := Nat.le_succ _

theorem subAll_length_le (t : List Char → Option Nat) (s : List Char) :
    (subAll t s).length ≤ s.length :=
  subAllGo_length_le t s.length s

theorem subAllMGo_length_le (t : List Char → Option Nat) :
    ∀ fuel bol s, (subAllMGo t fuel bol s).length ≤ s.length := by
  intro fuel
  induction fuel with
  | zero => intro bol s; cases s <;> simp [subAllMGo]
  | succ f ih =>
    intro bol s
    cases s with
    | nil => simp [subAllMGo]
    | cons c cs =>
      cases ht : (if bol then t (c :: cs) else none) with
      | none =>
        simp only [subAllMGo, ht, List.length_cons]
        exact Nat.succ_le_succ (ih _ cs)
      | some n =>
        simp only [subAllMGo, ht, List.length_cons]
        calc (subAllMGo t f _ (cs.drop (n - 1))).length
            ≤ (cs.drop (n - 1)).length := ih _ _
          _ ≤ cs.length := by simp [List.length_drop]
          _ ≤ cs.length + 1 := Nat.le_succ _

theorem subAllM_length_le (t : List Char → Option Nat) (s : List Char) :
    (subAllM t s).length ≤ s.length :=
  subAllMGo_length_le t s.length true s

theorem takeBefore_length_le (m : List Char) (s : List Char) :
    (takeBefore m s).length ≤ s.length := by
  induction s with
  | nil => simp [takeBefore]
  | cons c cs ih =>
    simp only [takeBefore]
    split
    · simp
    · simpa using Nat.succ_le_succ ih

theorem foldl_takeBefore_length_le (ms : List (List Char)) (s : List Char) :
    (ms.foldl (fun acc m => takeBefore m acc) s).length ≤ s.length := by
  induction ms generalizing s with
  | nil => simp
  | cons m ms ih =>
    exact le_trans (ih (takeBefore m s)) (takeBefore_length_le m s)

theorem pyStrip_length_le (s : List Char) : (pyStrip s).length ≤ s.length := by
  unfold pyStrip
  calc (((s.dropWhile pyWhite).reverse.dropWhile pyWhite).reverse).length
      = ((s.dropWhile pyWhite).reverse.dropWhile pyWhite).length := by
        simp
    _ ≤ (s.dropWhile pyWhite).reverse.length :=
        (List.dropWhile_suffix _).length_le
    _ = (s.dropWhile pyWhite).length := by simp
    _ ≤ s.length := (List.dropWhile_suffix _).length_le

theorem scrub_length_le (s : List Char) : (scrub s).length ≤ s.length := by
  unfold scrub
  refine le_trans (pyStrip_length_le _) ?_
  refine le_trans (subAllM_length_le _ _) ?_
  refine le_trans (subAllM_length_le _ _) ?_
  refine le_trans (subAllM_length_le _ _) ?_
  refine le_trans (subAllM_length_le _ _) ?_
  refine le_trans (subAll_length_le _ _) ?_
  refine le_trans (subAll_length_le _ _) ?_
  refine le_trans (subAll_length_le _ _) ?_
  exact foldl_takeBefore_length_le _ _

/-- **C5 (amended)**: `scrub` never lengthens its input — each pass only
deletes characters — so iterating it is monotonically non-increasing in
length.  Full idempotence `scrub (scrub x) = scrub x` fails: removing one
`THOUGHT:`/`PLAN:`/`FOCUS TASK:` header can expose another header that only
the next pass removes (see `scrub_not_idempotent`). -/
theorem scrub_shrinks (x : List Char) :
    (scrub (scrub x)).length ≤ (scrub x).length ∧ (scrub x).length ≤ x.length :=
  ⟨scrub_length_le (scrub x), scrub_length_le x⟩

set_option maxRecDepth 4000 in
/-- **C5 counterexample**: on `"THOUGHT: PLAN: hi"` the first scrub removes
the `THOUGHT: ` header, exposing `PLAN: hi`; the second scrub removes
`PLAN: ` as well, so `scrub (scrub x) ≠ scrub x`. -/
theorem scrub_not_idempotent :
    scrub (scrub "THOUGHT: PLAN: hi".toList) ≠ scrub "THOUGHT: PLAN: hi".toList := by
  decide

/-! ## The responder upstream call and its exception handling
(core/agent.py lines 576–625; core/llm.py line 148) -/

/-- The Python exceptions distinguished by the responder call's `except`
chain, each carrying its `str(e)` text (`httpStatusError` carries
`e.response.status_code` and `e.response.text`). -/
inductive PyExc where
  | typeError (msg : String)
  | connectError (msg : String)
  | connectTimeout (msg : String)
  | httpStatusError (status : Nat) (body : String)
  | otherError (msg : String)
deriving DecidableEq, Repr

/-- `str(e)` as used in the interpolated error strings (for an HTTP status
error the handler interpolates the response text). -/
def pyStr : PyExc → String
  | .typeError m => m
  | .connectError m => m
  | .connectTimeout m => m
  | .httpStatusError _ b => b
  | .otherError m => m

/-- Keyword parameters accepted by `LLMClient.chat_completion`
(core/llm.py line 148): `use_swarm`, `use_worker`, `use_vision`, and no
`**kwargs`. -/
def chatCompletionKeywords : List String := ["use_swarm", "use_worker", "use_vision"]

/-- Keyword arguments passed by `handle_chat` at the non-streaming responder
call site, `chat_completion(payload, use_coding=has_coding_intent)`
(core/agent.py line 579; the overflow retry at line 609 passes the same). -/
def responderCallKeywords : List String := ["use_coding"]

/-- Python call semantics: passing a keyword argument that is not a
parameter of the callee raises `TypeError` before the body runs. -/
def bindKeywords (accepted passed : List String) : Except PyExc Unit :=
  match passed.find? (fun k => !(accepted.contains k)) with
  | some k => .error (.typeError
      ("chat_completion() got an unexpected keyword argument '" ++ k ++ "'"))
  | none => .ok ()

/-- The assistant message of a successful chat-completion response. -/
structure AssistantMsg where
  content : String
  toolCalls : List String
deriving DecidableEq, Repr

/-- Outcome of the guarded responder call: `proceed` continues the turn into
content scrubbing and tool handling with the received message and the
(possibly recovered) working list; `halt` is the `force_stop = True; break`
path carrying the final assistant error string.  `upstreamCalls` counts how
many `chat_completion` round-trips were actually issued. -/
inductive CallOutcome where
  | proceed (msg : AssistantMsg) (messages : List Msg) (upstreamCalls : Nat)
  | halt (finalContent : String) (messages : List Msg) (upstreamCalls : Nat)
deriving DecidableEq, Repr

/-- The truncation marker appended to the one retained tool result. -/
def truncMarker : String := "\n... [EMERGENCY TRUNCATION] ..."

/-- The user-role notice appended after the emergency prune. -/
def overflowNotice : Msg :=
  ⟨"user", "SYSTEM ALERT: The conversation history was truncated to fit within context limits. Continue task. Assume previous context has been handled.", "", ""⟩

/-- The emergency prune (core/agent.py lines 590–604): keep the system
messages, the last user message if any, the last tool result of the turn
truncated to its first 1000 characters plus an explicit marker, and append
the user-role truncation notice. -/
def emergencyPrune (messages toolsRunThisTurn : List Msg) : List Msg :=
  let systemMsgs := messages.filter (fun m => m.role == "system")
  let withUser := systemMsgs ++
    (match lastUser messages with | some u => [u] | none => [])
  let withTool := withUser ++
    (match toolsRunThisTurn.getLast? with
     | some t => [{ t with content := pyTake 1000 t.content ++ truncMarker }]
     | none => [])
  withTool ++ [overflowNotice]

/-- The `except` chain of the responder call (core/agent.py lines 582–625):
connection failures, the HTTP-400 context-overflow recovery (with exactly
one retry on the pruned list), other HTTP errors, and the generic handler —
every branch surfaces a final assistant string rather than re-raising. -/
def dispatchExc (upstream : List Msg → Except PyExc AssistantMsg)
    (messages toolsRun : List Msg) (callsSoFar : Nat) : PyExc → CallOutcome
  | .connectError _ => .halt "CRITICAL: The upstream LLM server is unreachable. It may have crashed due to memory pressure or is currently restarting. Please wait a moment and try again." messages callsSoFar
  | .connectTimeout _ => .halt "CRITICAL: The upstream LLM server is unreachable. It may have crashed due to memory pressure or is currently restarting. Please wait a moment and try again." messages callsSoFar
  | .httpStatusError status body =>
    if status = 400 ∧ strContainsLower body "context" = true then
      match upstream (emergencyPrune messages toolsRun) with
      | .ok msg => .proceed msg (emergencyPrune messages toolsRun) (callsSoFar + 1)
      | .error e2 => .halt ("CRITICAL: Context overflow recovery failed: " ++ pyStr e2)
          (emergencyPrune messages toolsRun) (callsSoFar + 1)
    else
      .halt ("CRITICAL: Upstream error " ++ toString status ++ ": " ++ body)
        messages callsSoFar
  | .typeError m => .halt ("CRITICAL: An unexpected error occurred while communicating with the LLM: " ++ m) messages callsSoFar
  | .otherError m => .halt ("CRITICAL: An unexpected error occurred while communicating with the LLM: " ++ m) messages callsSoFar

/-- The whole guarded non-streaming responder call (core/agent.py lines
576–625): Python first binds the keyword arguments of
`chat_completion(payload, use_coding=…)` against the `LLMClient` signature —
raising `TypeError` before any HTTP round-trip when binding fails — and the
resulting exception, or any exception of the call itself, is fed to the
`except` chain. -/
def responderStep (upstream : List Msg → Except PyExc AssistantMsg)
    (reqMessages messages toolsRun : List Msg) : CallOutcome :=
  match bindKeywords chatCompletionKeywords responderCallKeywords with
  | .error e => dispatchExc upstream messages toolsRun 0 e
  | .ok _ =>
    match upstream reqMessages with
    | .ok msg => .proceed msg messages 1
    | .error e => dispatchExc upstream messages toolsRun 1 e

set_option maxRecDepth 10000 in
/-- **C1**: the responder call site passes `use_coding`, which
`LLMClient.chat_completion` (signature `use_swarm`, `use_worker`,
`use_vision` only) does not accept; the resulting `TypeError` is caught by
the generic handler, so the turn halts (`force_stop`) with a final string
beginning `"CRITICAL: An unexpected error occurred while communicating with
the LLM"`, zero upstream round-trips are issued, and the turn never proceeds
to tool handling — so no tool invocation of that turn is executed. -/
theorem responder_call_use_coding_type_error
    (upstream : List Msg → Except PyExc AssistantMsg)
    (reqMessages messages toolsRun : List Msg) :
    responderStep upstream reqMessages messages toolsRun
      = .halt ("CRITICAL: An unexpected error occurred while communicating with the LLM: chat_completion() got an unexpected keyword argument 'use_coding'") messages 0
    ∧ ("CRITICAL: An unexpected error occurred while communicating with the LLM".toList.isPrefixOf
        "CRITICAL: An unexpected error occurred while communicating with the LLM: chat_completion() got an unexpected keyword argument 'use_coding'".toList) = true
    ∧ ∀ msg msgs n, responderStep upstream reqMessages messages toolsRun
        ≠ .proceed msg msgs n := by
  refine ⟨rfl, by decide, ?_⟩
  intro msg msgs n h
  simp [responderStep, bindKeywords, chatCompletionKeywords,
    responderCallKeywords, dispatchExc] at h

/-- **C8**: when the responder call fails with HTTP 400 whose body mentions
"context", the handler prunes the working list to exactly the system
messages, the last user message (if any), at most one tool result truncated
to 1000 characters plus an explicit marker, and one appended user-role
notice; it retries exactly once (two round-trips total), and if the retry
also fails the error is surfaced as the final assistant string
(`force_stop`), not as a transport error. -/
theorem context_overflow_recovery (upstream : List Msg → Except PyExc AssistantMsg)
    (messages toolsRun : List Msg) (body : String)
    (hctx : strContainsLower body "context" = true) :
    (∀ e2, upstream (emergencyPrune messages toolsRun) = .error e2 →
      dispatchExc upstream messages toolsRun 1 (.httpStatusError 400 body)
        = .halt ("CRITICAL: Context overflow recovery failed: " ++ pyStr e2)
            (emergencyPrune messages toolsRun) 2)
    ∧ (∀ msg, upstream (emergencyPrune messages toolsRun) = .ok msg →
      dispatchExc upstream messages toolsRun 1 (.httpStatusError 400 body)
        = .proceed msg (emergencyPrune messages toolsRun) 2)
    ∧ emergencyPrune messages toolsRun
        = messages.filter (fun m => m.role == "system")
          ++ (match lastUser messages with | some u => [u] | none => [])
          ++ (match toolsRun.getLast? with
              | some t => [{ t with content := pyTake 1000 t.content ++ truncMarker }]
              | none => [])
          ++ [overflowNotice]
    ∧ (∀ s : String, (pyTake 1000 s).length ≤ 1000) := by
  refine ⟨?_, ?_, ?_, ?_⟩
  · intro e2 h2
    simp [dispatchExc, hctx, h2]
  · intro msg h2
    simp [dispatchExc, hctx, h2]
  · simp [emergencyPrune, List.append_assoc]
  · intro s
    simp only [pyTake]
    calc (String.mk (s.toList.take 1000)).length = (s.toList.take 1000).length := rfl
      _ ≤ 1000 := List.length_take_le _ _

/-- Witness for C8 at a concrete input: a failing retry surfaces the final
assistant string. -/
theorem context_overflow_recovery_witness :
    dispatchExc (fun _ => .error (.otherError "boom"))
      [⟨"system", "s", "", ""⟩, ⟨"user", "u", "", ""⟩] [] 1
      (.httpStatusError 400 "Context length exceeded") =
    .halt ("CRITICAL: Context overflow recovery failed: boom")
      [⟨"system", "s", "", ""⟩, ⟨"user", "u", "", ""⟩, overflowNotice] 2 := by
  have h := (context_overflow_recovery (fun _ => .error (.otherError "boom"))
    [⟨"system", "s", "", ""⟩, ⟨"user", "u", "", ""⟩] []
    "Context length exceeded" (by decide)).1 (.otherError "boom") rfl
  rw [h]
  decide

/-! ## The upstream router: `LLMClient.chat_completion` and
`LLMClient.get_embeddings` (core/llm.py lines 98–310) -/

structure NodeCfg where
  url : String
  model : String
deriving DecidableEq, Repr

/-- Outcome of one HTTP round-trip against the main upstream client. -/
inductive UpstreamOutcome where
  | success (resp : String)
  | connectErr
  | readErr
  | writeErr
  | protocolErr
  | timeoutErr
  | statusErr (status : Nat) (body : String)
  | otherErr (msg : String)
deriving DecidableEq, Repr

/-- The exception classes caught by the retry loop's first `except` clause:
`httpx.RemoteProtocolError, httpx.ReadError, httpx.WriteError,
httpx.ConnectError` (core/llm.py lines 274 and 301).  `httpx` timeout
exceptions are siblings of these classes, not subclasses, so they fall
through to the later clauses and are re-raised. -/
def isRetriable : UpstreamOutcome → Bool
  | .connectErr => true
  | .readErr => true
  | .writeErr => true
  | .protocolErr => true
  | _ => false

/-- The retry loop shared by `chat_completion` (lines 269–288, cap 30) and
`get_embeddings` (lines 295–310, cap 20): `for attempt in range(10)`; on a
retriable error with `attempt < 9` sleep `min(2 ** (attempt + 1), cap)`
seconds and continue; any other failure is re-raised immediately.  Returns
(result, sleeps performed, attempts made); `fuel` starts at 10 for the
`range(10)` bound — the body returns or raises at attempt 9, so the fuel-0
row is never reached from the entry points. -/
def retryGo (cap : Nat) (call : Nat → UpstreamOutcome) :
    Nat → Nat → Except UpstreamOutcome String × List Nat × Nat
  | 0, _ => (.error (.otherErr "range exhausted"), [], 0)
  | fuel + 1, attempt =>
    match call attempt with
    | .success r => (.ok r, [], 1)
    | o =>
      if isRetriable o then
        if attempt < 9 then
          ((retryGo cap call fuel (attempt + 1)).1,
           min (2 ^ (attempt + 1)) cap :: (retryGo cap call fuel (attempt + 1)).2.1,
           (retryGo cap call fuel (attempt + 1)).2.2 + 1)
        else (.error o, [], 1)
      else (.error o, [], 1)

/-- The main-pool retry loop of `chat_completion` (cap 30 seconds). -/
def mainRetry (call : Nat → UpstreamOutcome) :
    Except UpstreamOutcome String × List Nat × Nat :=
  retryGo 30 call 10 0

/-- The retry loop of `get_embeddings` (cap 20 seconds). -/
def embeddingsRetry (call : Nat → UpstreamOutcome) :
    Except UpstreamOutcome String × List Nat × Nat :=
  retryGo 20 call 10 0

theorem retryGo_attempts_le (cap : Nat) (call : Nat → UpstreamOutcome) :
    ∀ fuel attempt, (retryGo cap call fuel attempt).2.2 ≤ fuel := by
  intro fuel
  induction fuel with
  | zero => intro attempt; simp [retryGo]
  | succ f ih =>
    intro attempt
    simp only [retryGo]
    cases call attempt with
    | success r => simp
    | connectErr => simp [isRetriable]; split <;> simp [Nat.succ_le_succ (ih _)]
    | readErr => simp [isRetriable]; split <;> simp [Nat.succ_le_succ (ih _)]
    | writeErr => simp [isRetriable]; split <;> simp [Nat.succ_le_succ (ih _)]
    | protocolErr => simp [isRetriable]; split <;> simp [Nat.succ_le_succ (ih _)]
    | timeoutErr => simp [isRetriable]
    | statusErr s b => simp [isRetriable]
    | otherErr m => simp [isRetriable]

theorem retryGo_attempts_pos (cap : Nat) (call : Nat → UpstreamOutcome)
    (fuel attempt : Nat) : 1 ≤ (retryGo cap call (fuel + 1) attempt).2.2 := by
  simp only [retryGo]
  cases call attempt with
  | success r => simp
  | connectErr => simp [isRetriable]; split <;> simp
  | readErr => simp [isRetriable]; split <;> simp
  | writeErr => simp [isRetriable]; split <;> simp
  | protocolErr => simp [isRetriable]; split <;> simp
  | timeoutErr => simp [isRetriable]
  | statusErr s b => simp [isRetriable]
  | otherErr m => simp [isRetriable]

/-- **C4 (amended)**: within a node, the retry loop makes at most 10
attempts; a successful round-trip returns at once; the retried error kinds
are exactly connect, read, write and protocol errors — a timeout or any
other error (HTTP non-2xx included) is surfaced immediately without a
retry — and each retry sleeps `min(2^(attempt+1), cap)` seconds with cap 30
for chat and cap 20 for embeddings. (As stated the claim fails: it lists
timeout among the retried kinds, but the `except` tuple does not include the
`httpx` timeout exceptions — see `timeout_not_retried`.) -/
theorem retry_backoff_policy (call : Nat → UpstreamOutcome) :
    ((mainRetry call).2.2 ≤ 10 ∧ (embeddingsRetry call).2.2 ≤ 10)
    ∧ (∀ cap fuel attempt r, call attempt = .success r →
        retryGo cap call (fuel + 1) attempt = (.ok r, [], 1))
    ∧ (∀ cap fuel attempt, isRetriable (call attempt) = false →
        (∀ r, call attempt ≠ .success r) →
        retryGo cap call (fuel + 1) attempt = (.error (call attempt), [], 1))
    ∧ (∀ fuel attempt, isRetriable (call attempt) = true → attempt < 9 →
        (retryGo 30 call (fuel + 1) attempt).2.1
          = min (2 ^ (attempt + 1)) 30 :: (retryGo 30 call fuel (attempt + 1)).2.1
        ∧ (retryGo 20 call (fuel + 1) attempt).2.1
          = min (2 ^ (attempt + 1)) 20 :: (retryGo 20 call fuel (attempt + 1)).2.1)
    ∧ (isRetriable .timeoutErr = false ∧ (∀ c b, isRetriable (.statusErr c b) = false)
       ∧ (∀ m, isRetriable (.otherErr m) = false)
       ∧ isRetriable .connectErr = true ∧ isRetriable .readErr = true
       ∧ isRetriable .writeErr = true ∧ isRetriable .protocolErr = true) := by
  refine ⟨⟨retryGo_attempts_le 30 call 10 0, retryGo_attempts_le 20 call 10 0⟩,
    ?_, ?_, ?_, by simp [isRetriable], fun c b => by simp [isRetriable],
    fun m => by simp [isRetriable], by simp [isRetriable], by simp [isRetriable],
    by simp [isRetriable], by simp [isRetriable]⟩
  · intro cap fuel attempt r h
    simp [retryGo, h]
  · intro cap fuel attempt hret hsucc
    simp only [retryGo]
    cases hc : call attempt with
    | success r => exact absurd hc (hsucc r)
    | connectErr => rw [hc] at hret; simp [isRetriable] at hret
    | readErr => rw [hc] at hret; simp [isRetriable] at hret
    | writeErr => rw [hc] at hret; simp [isRetriable] at hret
    | protocolErr => rw [hc] at hret; simp [isRetriable] at hret
    | timeoutErr => simp [isRetriable]
    | statusErr s b => simp [isRetriable]
    | otherErr m => simp [isRetriable]
  · intro fuel attempt hret hlt
    constructor <;>
    · simp only [retryGo]
      cases hc : call attempt with
      | success r => rw [hc] at hret; simp [isRetriable] at hret
      | connectErr => simp [isRetriable, hlt]
      | readErr => simp [isRetriable, hlt]
      | writeErr => simp [isRetriable, hlt]
      | protocolErr => simp [isRetriable, hlt]
      | timeoutErr => rw [hc] at hret; simp [isRetriable] at hret
      | statusErr s b => rw [hc] at hret; simp [isRetriable] at hret
      | otherErr m => rw [hc] at hret; simp [isRetriable] at hret

/-- Witness for C4 (amended) at concrete inputs: a connect error at attempt 0
sleeps `min(2^1, 30) = 2` seconds before attempt 1. -/
theorem retry_backoff_policy_witness :
    (retryGo 30 (fun _ => .connectErr) 10 0).2.1
      = min (2 ^ 1) 30 :: (retryGo 30 (fun _ => .connectErr) 9 1).2.1 :=
  ((retry_backoff_policy (fun _ => .connectErr)).2.2.2.1 9 0 (by decide) (by decide)).1

/-- **C4 counterexample**: with every attempt timing out, the loop makes a
single attempt, performs no backoff sleep, and surfaces the timeout — while
the same trace with connect errors is retried for all 10 attempts.  So
timeout is not among the retried kinds, contrary to the claim. -/
theorem timeout_not_retried :
    mainRetry (fun _ => .timeoutErr) = (.error .timeoutErr, [], 1)
    ∧ (mainRetry (fun _ => .connectErr)).2.2 = 10
    ∧ (mainRetry (fun _ => .connectErr)).2.1
        = [2, 4, 8, 16, 30, 30, 30, 30, 30] := by
  refine ⟨rfl, rfl, rfl⟩

/-! ### Pool selection and the class branches of `chat_completion` -/

/-- Round-robin pick (`get_*_node` with no target): `node = clients[idx];
idx = (idx + 1) % len(clients)`.  The class keeps `idx < len`; `% length`
keeps the model total for arbitrary indices. -/
def rrGet (clients : List NodeCfg) (idx : Nat) : NodeCfg × Nat :=
  (clients.getD (idx % clients.length) ⟨"", ""⟩, (idx + 1) % clients.length)

/-- `get_swarm_node` / `get_worker_node` / `get_vision_node`: with a target
model, the first node whose model label contains it (both lowered) is
returned and the round-robin index is left untouched; otherwise round-robin
(core/llm.py lines 98–146). -/
def getNodeT (clients : List NodeCfg) (idx : Nat) : Option String → NodeCfg × Nat
  | some t =>
    match clients.find? (fun n =>
        listContains (t.toList.map Char.toLower) (n.model.toList.map Char.toLower)) with
    | some n => (n, idx)
    | none => rrGet clients idx
  | none => rrGet clients idx

/-- `loop_breaker = 0; while node in tried_nodes and loop_breaker <
len(clients): node = get(None); loop_breaker += 1`. -/
def skipTried (clients : List NodeCfg) (tried : List NodeCfg) :
    Nat → NodeCfg → Nat → NodeCfg × Nat
  | 0, node, idx => (node, idx)
  | lb + 1, node, idx =>
    if node ∈ tried then
      skipTried clients tried lb (rrGet clients idx).1 (rrGet clients idx).2
    else (node, idx)

/-- One pool branch of `chat_completion` (the `for _ in
range(len(clients))` loop shared by the vision / worker / swarm branches,
core/llm.py lines 160–187, 200–227, 238–265): dedup against `tried_nodes`,
post to the picked node, return the first success, on failure advance
round-robin and continue.  `call` is indexed by the number of posts so far;
returns the successful response (if any) and the number of posts made. -/
def poolLoop (clients : List NodeCfg) (call : Nat → NodeCfg → Except Unit String) :
    Nat → List NodeCfg → NodeCfg → Nat → Nat → Option String × Nat
  | 0, _, _, _, posts => (none, posts)
  | fuel + 1, tried, node, idx, posts =>
    let p1 := if node ∈ tried then rrGet clients idx else (node, idx)
    let p2 := skipTried clients tried clients.length p1.1 p1.2
    match call posts p2.1 with
    | .ok r => (some r, posts + 1)
    | .error _ => poolLoop clients call fuel (tried ++ [p2.1])
        (rrGet clients p2.2).1 (rrGet clients p2.2).2 (posts + 1)

/-- The error classes a routed call can surface. -/
inductive RouteErr where
  | visionFailed
  | upstream (o : UpstreamOutcome)
deriving DecidableEq, Repr

/-- The three auxiliary pools of an `LLMClient`. -/
structure LLMPools where
  swarmClients : List NodeCfg
  workerClients : List NodeCfg
  visionClients : List NodeCfg
deriving DecidableEq, Repr

structure RouteResult where
  result : Except RouteErr String
  poolPosts : Nat
  mainAttempts : Nat
deriving Repr

/-- `LLMClient.chat_completion` (core/llm.py lines 148–288): the vision
branch returns a success or *raises* after its pool is exhausted (or absent)
without ever touching the main client; the worker branch (`if use_worker and
worker_clients`) and otherwise the swarm branch (`elif use_swarm and
swarm_clients`) fall through to the main retry loop on exhaustion; every
other call goes straight to the main retry loop.  `startIdx` is the pool's
current round-robin index, `nodeCall` the per-post pool outcome, `mainCall`
the per-attempt main-client outcome. -/
def chatCompletionRoute (pools : LLMPools) (targetModel : Option String)
    (useSwarm useWorker useVision : Bool) (startIdx : Nat)
    (nodeCall : Nat → NodeCfg → Except Unit String)
    (mainCall : Nat → UpstreamOutcome) : RouteResult :=
  if useVision then
    if pools.visionClients ≠ [] then
      let p0 := getNodeT pools.visionClients startIdx targetModel
      match poolLoop pools.visionClients nodeCall pools.visionClients.length
          [] p0.1 p0.2 0 with
      | (some r, posts) => ⟨.ok r, posts, 0⟩
      | (none, posts) => ⟨.error .visionFailed, posts, 0⟩
    else ⟨.error .visionFailed, 0, 0⟩
  else
    let pool : Option (Option String × Nat) :=
      if useWorker = true ∧ pools.workerClients ≠ [] then
        let p0 := getNodeT pools.workerClients startIdx targetModel
        some (poolLoop pools.workerClients nodeCall pools.workerClients.length
          [] p0.1 p0.2 0)
      else if useSwarm = true ∧ pools.swarmClients ≠ [] then
        let p0 := getNodeT pools.swarmClients startIdx targetModel
        some (poolLoop pools.swarmClients nodeCall pools.swarmClients.length
          [] p0.1 p0.2 0)
      else none
    match pool with
    | some (some r, posts) => ⟨.ok r, posts, 0⟩
    | some (none, posts) =>
      ⟨(mainRetry mainCall).1.mapError .upstream, posts, (mainRetry mainCall).2.2⟩
    | none =>
      ⟨(mainRetry mainCall).1.mapError .upstream, 0, (mainRetry mainCall).2.2⟩

/-- **C3 (amended)**: for the worker and swarm/planner classes the router
always falls back to the main pool — any non-vision call that surfaces an
error surfaces it from the main retry loop, after at least one main-pool
attempt, whether the class pool was exhausted or absent.  The vision class is
the exception the original claim misses: on exhaustion (or an unconfigured
pool) it raises its terminal error with zero main-pool attempts — see
`vision_no_main_fallback`. -/
theorem nonvision_error_implies_main_attempt (pools : LLMPools)
    (targetModel : Option String) (useSwarm useWorker : Bool) (startIdx : Nat)
    (nodeCall : Nat → NodeCfg → Except Unit String)
    (mainCall : Nat → UpstreamOutcome) (e : RouteErr)
    (herr : (chatCompletionRoute pools targetModel useSwarm useWorker false
        startIdx nodeCall mainCall).result = .error e) :
    1 ≤ (chatCompletionRoute pools targetModel useSwarm useWorker false
        startIdx nodeCall mainCall).mainAttempts
    ∧ ∃ o, e = .upstream o := by
  simp only [chatCompletionRoute, Bool.false_eq_true, if_false] at herr ⊢
  split at herr
  · simp at herr
  · rename_i posts heq
    refine ⟨retryGo_attempts_pos 30 mainCall 9 0, ?_⟩
    cases hm : (mainRetry mainCall).1 with
    | ok r => rw [hm] at herr; simp [Except.mapError] at herr
    | error o => rw [hm] at herr; simp [Except.mapError] at herr; exact ⟨o, herr.symm⟩
  · rename_i heq
    refine ⟨retryGo_attempts_pos 30 mainCall 9 0, ?_⟩
    cases hm : (mainRetry mainCall).1 with
    | ok r => rw [hm] at herr; simp [Except.mapError] at herr
    | error o => rw [hm] at herr; simp [Except.mapError] at herr; exact ⟨o, herr.symm⟩

/-- Witness for C3 (amended): a worker pool of one failing node falls back to
the main pool, which also fails; the surfaced error is the main loop's. -/
theorem nonvision_error_implies_main_attempt_witness :
    1 ≤ (chatCompletionRoute ⟨[], [⟨"http://w1", "m1"⟩], []⟩ none false true false 0
        (fun _ _ => .error ()) (fun _ => .statusErr 500 "boom")).mainAttempts :=
  (nonvision_error_implies_main_attempt ⟨[], [⟨"http://w1", "m1"⟩], []⟩ none false true 0
    (fun _ _ => .error ()) (fun _ => .statusErr 500 "boom")
    (.upstream (.statusErr 500 "boom")) rfl).1

/-- **C3 counterexample**: a vision call whose single configured node fails
surfaces the terminal vision error with *zero* main-pool attempts — the
vision class never invokes the main pool, contrary to the claim's "worker,
swarm/planner, and vision alike". -/
theorem vision_no_main_fallback :
    chatCompletionRoute ⟨[], [], [⟨"http://v1", "vis"⟩]⟩ none false false true 0
        (fun _ _ => .error ()) (fun _ => .success "main would have answered")
      = ⟨.error .visionFailed, 1, 0⟩ := rfl

/-! ## Safe path resolution and the file tools (tools/file_system.py) -/

/-- An absolute filesystem path as its list of components from the root. -/
abbrev PathC := List String

/-- `Path.resolve()` over components joined onto an (already absolute) base:
`..` pops a component, `.` and empty segments vanish, anything else pushes.
Symbolic links are not modelled. -/
def resolveSegs (base : PathC) (segs : List String) : PathC :=
  segs.foldl (fun acc seg =>
    if seg = "" ∨ seg = "." then acc
    else if seg = ".." then acc.dropLast
    else acc ++ [seg]) base

/-- Path-string splitting on `/`. -/
def splitSegs (s : String) : List String := (s.toList.splitOn '/').map String.mk

/-- Python `filename.lstrip("/")` (tools/file_system.py line 21). -/
def lstripSlash (s : String) : String :=
  String.mk (s.toList.dropWhile (fun c => c == '/'))

/-- `_get_safe_path(sandbox_dir, filename)` (tools/file_system.py lines
16–35): strip leading slashes so the name is treated as relative, join onto
the sandbox directory, resolve, and reject the result with a `ValueError`
unless it is still inside the resolved sandbox (`Path.is_relative_to`). -/
def getSafePath (sandbox : PathC) (filename : String) : Except String PathC :=
  let target := resolveSegs [] (sandbox ++ splitSegs (lstripSlash filename))
  if (resolveSegs [] sandbox).isPrefixOf target then .ok target
  else .error ("Security Error: Path '" ++ filename ++ "' attempts to access outside sandbox.")

/-- Disk side effects a file tool can perform. -/
inductive FsEffect where
  | mkdirParents (p : PathC)
  | writeText (p : PathC) (content : String)
  | readText (p : PathC)
deriving DecidableEq, Repr

/-- `tool_write_file(filename, content, sandbox_dir)` (lines 99–118): the
empty/None content guard runs first; then the safe-path guard (whose
`ValueError` is caught and returned as the result string, with no disk
access); only then are the parent directories created and the file written.
The dict/list auto-serialisation branch is outside this model: `content`
is either absent (`None`) or a string. -/
def toolWriteFile (sandbox : PathC) (filename : String) (content : Option String) :
    String × List FsEffect :=
  let emptyErr := "Error: The 'content' you provided for '" ++ filename ++ "' is empty or 'None'. You MUST provide the actual text to write. If you intended to use data from a previous tool, ensure that tool succeeded and produced output."
  match content with
  | none => (emptyErr, [])
  | some c =>
    if pyLower (pyStripStr c) = "none" ∨ pyStripStr c = "" then (emptyErr, [])
    else
      match getSafePath sandbox filename with
      | .error e => (e, [])
      | .ok p =>
        ("SUCCESS: Wrote " ++ toString c.length ++ " chars to '" ++ filename ++ "'.",
         [.mkdirParents p.dropLast, .writeText p c])

/-- `tool_read_file(filename, sandbox_dir)` (lines 37–58): URL and PDF
guards, then the safe-path guard, then existence and the 150 KB size limit;
only then is the file read.  `fs` maps an absolute path to its (size,
text) when the file exists. -/
def toolReadFile (sandbox : PathC) (filename : String)
    (fs : PathC → Option (Nat × String)) : String × List FsEffect :=
  if filename.startsWith "http" then
    ("Error: You are trying to use read_file on a URL. Use knowledge_base(action='ingest_document') instead.", [])
  else if (pyLower filename).endsWith ".pdf" then
    ("Error: '" ++ filename ++ "' is a PDF. You cannot use read_file on PDFs.", [])
  else
    match getSafePath sandbox filename with
    | .error e => (e, [])
    | .ok p =>
      match fs p with
      | none => ("Error: '" ++ filename ++ "' not found.", [])
      | some (size, text) =>
        if size > 150000 then
          ("Error: File '" ++ filename ++ "' is too large to read entirely.", [])
        else (text, [.readText p])

/-- **C10**: the safe-path guard resolves every filename to an absolute path
and accepts it only when the resolved path still lies under the (resolved)
sandbox root; every disk effect of the read/write tools targets a path the
guard accepted; and when the guard rejects, the tools return the security
error string and touch no path on disk. -/
theorem safe_path_guard (sandbox : PathC) (filename : String)
    (content : Option String) (fs : PathC → Option (Nat × String)) :
    (∀ p, getSafePath sandbox filename = .ok p → (resolveSegs [] sandbox) <+: p)
    ∧ (∀ e, getSafePath sandbox filename = .error e →
        e = "Security Error: Path '" ++ filename ++ "' attempts to access outside sandbox.")
    ∧ (∀ eff ∈ (toolWriteFile sandbox filename content).2, ∃ p,
        getSafePath sandbox filename = .ok p
        ∧ (eff = .mkdirParents p.dropLast ∨ eff = .writeText p (content.getD "")))
    ∧ (∀ eff ∈ (toolReadFile sandbox filename fs).2, ∃ p,
        getSafePath sandbox filename = .ok p ∧ eff = .readText p)
    ∧ (∀ e, getSafePath sandbox filename = .error e →
        (toolWriteFile sandbox filename content).2 = []
        ∧ (toolReadFile sandbox filename fs).2 = []
        ∧ (∀ c, content = some c →
            ¬(pyLower (pyStripStr c) = "none" ∨ pyStripStr c = "") →
            (toolWriteFile sandbox filename content).1 = e)) := by
  refine ⟨?_, ?_, ?_, ?_, ?_⟩
  · intro p hp
    simp only [getSafePath] at hp
    split at hp
    · rename_i hpre
      cases hp
      exact List.isPrefixOf_iff_prefix.mp hpre
    · simp at hp
  · intro e he
    simp only [getSafePath] at he
    split at he
    · simp at he
    · cases he
      rfl
  · intro eff heff
    cases content with
    | none => simp [toolWriteFile] at heff
    | some c =>
      simp only [toolWriteFile] at heff
      split at heff
      · simp at heff
      · cases hg : getSafePath sandbox filename with
        | error e => rw [hg] at heff; simp at heff
        | ok p =>
          rw [hg] at heff
          simp only [List.mem_cons, List.mem_singleton] at heff
          refine ⟨p, rfl, ?_⟩
          rcases heff with h | h | h
          · exact Or.inl h
          · exact Or.inr (by simpa using h)
          · simp at h
  · intro eff heff
    simp only [toolReadFile] at heff
    split at heff
    · simp at heff
    · split at heff
      · simp at heff
      · cases hg : getSafePath sandbox filename with
        | error e => simp [hg] at heff
        | ok p =>
          cases hfs : fs p with
          | none => simp [hg, hfs] at heff
          | some st =>
            obtain ⟨sz, tx⟩ := st
            by_cases hsz : sz > 150000
            · simp [hg, hfs, hsz] at heff
            · simp [hg, hfs, hsz] at heff
              exact ⟨p, rfl, heff⟩
  · intro e he
    refine ⟨?_, ?_, ?_⟩
    · cases content with
      | none => simp [toolWriteFile]
      | some c =>
        simp only [toolWriteFile]
        split
        · rfl
        · rw [he]
    · simp only [toolReadFile]
      split
      · rfl
      · split
        · rfl
        · rw [he]
    · intro c hc hcontent
      subst hc
      simp only [toolWriteFile]
      rw [if_neg hcontent, he]

/-- Witness for C10 at a concrete escaping input: `../../etc/passwd`
resolves outside the sandbox, the guard rejects it, the write tool performs
no disk effect and returns the security error. -/
theorem safe_path_guard_witness :
    (toolWriteFile ["home", "ghost", "sandbox"] "../../etc/passwd" (some "data")).2 = []
    ∧ (toolWriteFile ["home", "ghost", "sandbox"] "../../etc/passwd" (some "data")).1
        = "Security Error: Path '../../etc/passwd' attempts to access outside sandbox." := by
  have h := (safe_path_guard ["home", "ghost", "sandbox"] "../../etc/passwd"
    (some "data") (fun _ => none)).2.2.2.2
    "Security Error: Path '../../etc/passwd' attempts to access outside sandbox." rfl
  exact ⟨h.1, h.2.2 "data" rfl (by decide)⟩

/-! ## The per-turn tool dispatch loop (core/agent.py lines 705–887)

The two phases of a turn after the responder answers with `tool_calls`: the
scheduling loop (usage caps, JSON validation, mutation bookkeeping, the
redundancy guard, the pre-execution critic, `tool_tasks.append`) and the
gather/results loop (summarisation, truncation, exit-code classification,
failure strikes).  External interactions are oracle parameters. -/

/-- Python `s.startswith(pre)`. -/
def pyStartsWith (s pre : String) : Bool := pre.toList.isPrefixOf s.toList

/-- Python `s.upper()`. -/
def pyUpper (s : String) : String := String.mk (s.toList.map Char.toUpper)

/-- `len(s.splitlines())` for `\n`-separated text (the rarer universal
newline characters are not modelled). -/
def splitlinesCount (s : String) : Nat :=
  if s.toList = [] then 0
  else s.toList.count '\n' + (if s.toList.getLast? = some '\n' then 0 else 1)

def digitsToNat (ds : List Char) : Nat :=
  ds.foldl (fun n c => n * 10 + (c.toNat - 48)) 0

/-- Try `EXIT CODE:\s*(\d+)` at the head of `s`. -/
def parseExitCodeAt (s : List Char) : Option Nat :=
  if ("EXIT CODE:".toList).isPrefixOf s then
    let ds := ((s.drop 10).dropWhile pyWhite).takeWhile Char.isDigit
    if ds = [] then none else some (digitsToNat ds)
  else none

/-- `re.search(r"EXIT CODE:\s*(\d+)", s)`: first position where the whole
pattern matches. -/
def parseExitCode : List Char → Option Nat
  | [] => none
  | c :: cs =>
    match parseExitCodeAt (c :: cs) with
    | some v => some v
    | none => parseExitCode cs

/-- Exit-code classification for `execute` results (lines 830–838): a parsed
`EXIT CODE: N` wins; otherwise 1 when the output mentions
`Error`/`Exception`/`Traceback`, else 0. -/
def execClassify (stRes : String) : Nat :=
  match parseExitCode stRes.toList with
  | some v => v
  | none =>
    if strContains stRes "Error" || strContains stRes "Exception"
        || strContains stRes "Traceback" then 1 else 0

/-- A parsed JSON argument object, abstracted by the projections the
dispatch loop reads: the canonical `json.dumps(t_args, sort_keys=True)`
rendering (the argument part of `a_hash`), `args.get("operation")`,
`args.get("action")`, and `args.get("content", "")`. -/
structure ToolArgs where
  canon : String
  operation : Option String := none
  action : Option String := none
  content : String := ""
deriving DecidableEq, Repr

/-- One entry of a turn's `tool_calls`; `args = none` models
`json.loads(tool["function"]["arguments"])` raising. -/
structure ToolCall where
  id : String
  fname : String
  args : Option ToolArgs
deriving DecidableEq, Repr

/-- File-system operations that invalidate the cached sandbox listing
(line 736). -/
def sandboxMutOps : List String :=
  ["write", "download", "delete", "move", "rename", "unzip", "git_clone"]

/-- File-system operations counted as mutating for the SeenSet (line 750). -/
def mutatingFsOps : List String := ["write", "download", "delete", "move", "rename"]

/-- Knowledge-base actions counted as mutating (line 751). -/
def mutatingKbActs : List String :=
  ["ingest_document", "forget", "reset_all", "insert_fact"]

/-- Tools that are always mutating (line 749). -/
def mutatingNames : List String :=
  ["execute", "manage_tasks", "update_profile", "learn_skill"]

def isSandboxMutation (fname : String) (a : ToolArgs) : Bool :=
  fname == "execute" ||
  (fname == "file_system" &&
    (match a.operation with | some op => sandboxMutOps.contains op | none => false))

def isMutating (fname : String) (a : ToolArgs) : Bool :=
  mutatingNames.contains fname ||
  (fname == "file_system" &&
    (match a.operation with | some op => mutatingFsOps.contains op | none => false)) ||
  (fname == "knowledge_base" &&
    (match a.action with | some ac => mutatingKbActs.contains ac | none => false))

/-- `max_uses = 10 if fname in ["deep_research", "web_search"] else (20 if
fname == "execute" else 10)` (line 726). -/
def maxUses (fname : String) : Nat :=
  if fname == "deep_research" || fname == "web_search" then 10
  else if fname == "execute" then 20 else 10

/-- The tool-specific hint of the redundancy error (lines 760–764). -/
def redundancyHint (fname : String) : String :=
  if fname == "recall" then "Semantic 'recall' cannot do exact string matching. To find an exact line, use file_system 'search'."
  else if fname == "web_search" then "Try a different search query or use deep_research."
  else "Change your strategy."

/-- The synthesized redundancy tool result (line 766). -/
def redundancyMsg (c : ToolCall) : Msg :=
  ⟨"tool", "SYSTEM MONITOR: ERROR - You already executed this exact tool call and it failed to progress the task. DO NOT REPEAT IT. " ++ redundancyHint c.fname, c.fname, c.id⟩

/-- The user-role usage-cap alert (line 729). -/
def usageAlertMsg (fname : String) : Msg :=
  ⟨"user", "SYSTEM ALERT: Tool '" ++ fname ++ "' used too many times in a row. It is now blocked. YOU MUST USE A DIFFERENT APPROACH OR STOP.", "", ""⟩

/-- A fixed specimen for `str(e)` of a JSON decode error. -/
def invalidArgsDetail : String := "Expecting value: line 1 column 1 (char 0)"

/-- External interactions of the dispatch loop: the critic verdict
`(is_approved, revised_code, critique)` for a code body
(`_run_critic_check`), the tool execution outcome for a (name, call id,
arguments) triple (`.error` models an exception collected by
`asyncio.gather(..., return_exceptions=True)`), the worker summarisation of
an oversized result (`none` models the worker call raising), and membership
in `self.available_tools`. -/
structure DispatchOracles where
  critic : String → Bool × Option String × String
  runTool : String → String → ToolArgs → Except String String
  summarize : String → Option String
  available : String → Bool

/-- The per-request mutable state the dispatch loop touches. -/
structure LoopState where
  messages : List Msg
  seenTools : List String
  toolUsage : String → Nat
  forceStop : Bool
  forceFinalResponse : Bool
  executionFailureCount : Nat
  lastWasFailure : Bool
  forgetWasCalled : Bool
  sandboxCacheValid : Bool
  toolsRunThisTurn : List Msg
  rawToolsCalled : List String
  executedLog : List (String × String)

/-- The state at request start (core/agent.py lines 355–368; the sandbox
cache starts out empty). -/
def initState (messages : List Msg) : LoopState :=
  { messages := messages, seenTools := [], toolUsage := fun _ => 0,
    forceStop := false, forceFinalResponse := false, executionFailureCount := 0,
    lastWasFailure := false, forgetWasCalled := false, sandboxCacheValid := false,
    toolsRunThisTurn := [], rawToolsCalled := [], executedLog := [] }

/-- The `forget` tracking of lines 717–724 (the knowledge-base branch
re-parses the arguments inside its own `try`). -/
def trackForgetFlag (fname : String) (args : Option ToolArgs) (prev : Bool) : Bool :=
  if fname == "forget" then true
  else if fname == "knowledge_base" then
    match args with
    | some a => if a.action == some "forget" then true else prev
    | none => prev
  else prev

def trackForget (fname : String) (args : Option ToolArgs) (st : LoopState) : LoopState :=
  { st with forgetWasCalled := trackForgetFlag fname args st.forgetWasCalled }

def unknownToolMsg (fname id : String) : Msg :=
  ⟨"tool", "Error: Unknown tool '" ++ fname ++ "'", fname, id⟩

/-- Lines 795–801: a validated invocation is appended to `tool_tasks` when
its tool exists, otherwise a synthesized unknown-tool result is appended.
An entry of `pending` is (fname, call id, a_hash, args). -/
def scheduleOrUnknown (or : DispatchOracles) (fname id aHash : String) (a : ToolArgs)
    (st : LoopState) (pending : List (String × String × String × ToolArgs)) :
    LoopState × List (String × String × String × ToolArgs) :=
  if or.available fname then
    ({ st with executedLog := st.executedLog ++ [(fname, aHash)] },
     pending ++ [(fname, id, aHash, a)])
  else
    ({ st with messages := st.messages ++ [unknownToolMsg fname id],
               toolsRunThisTurn := st.toolsRunThisTurn ++ [unknownToolMsg fname id] },
     pending)

/-- The scheduling loop (lines 710–801): per issuance bump the usage
counter, track `forget`, enforce the cap (`break` on breach), validate the
JSON arguments, do the mutation bookkeeping, apply the redundancy guard
(`strikes` is the turn-local `redundancy_strikes`), run the critic for long
`execute` bodies, and append runnable invocations to `pending`
(`tool_tasks`). -/
def schedLoop (or : DispatchOracles) :
    LoopState → Nat → List (String × String × String × ToolArgs) → List ToolCall →
    LoopState × List (String × String × String × ToolArgs)
  | st, _, pending, [] => (st, pending)
  | st, strikes, pending, tool :: rest =>
    let fname := tool.fname
    let st1 := { st with
      rawToolsCalled := st.rawToolsCalled ++ [fname],
      toolUsage := fun g => if g == fname then st.toolUsage g + 1 else st.toolUsage g }
    let st2 := trackForget fname tool.args st1
    if st2.toolUsage fname > maxUses fname then
      ({ st2 with messages := st2.messages ++ [usageAlertMsg fname], forceStop := true },
       pending)
    else
      match tool.args with
      | none =>
        let err : Msg := ⟨"tool", "Error: Invalid JSON arguments - " ++ invalidArgsDetail,
          fname, tool.id⟩
        schedLoop or
          { st2 with messages := st2.messages ++ [err],
                     toolsRunThisTurn := st2.toolsRunThisTurn ++ [err],
                     lastWasFailure := true } strikes pending rest
      | some a =>
        let st3 := { st2 with
          sandboxCacheValid := if isSandboxMutation fname a then false
            else st2.sandboxCacheValid }
        let aHash := fname ++ ":" ++ a.canon
        let st4 := { st3 with
          seenTools := if isMutating fname a then [] else st3.seenTools }
        if st4.seenTools.contains aHash && !isMutating fname a
            && fname != "system_utility" then
          let strikes1 := strikes + 1
          let st5 := { st4 with messages := st4.messages ++ [redundancyMsg tool],
                                toolsRunThisTurn := st4.toolsRunThisTurn ++ [redundancyMsg tool] }
          let st6 := if strikes1 ≥ 3 then { st5 with forceStop := true } else st5
          schedLoop or st6 strikes1 pending rest
        else
          let st5 := { st4 with seenTools := st4.seenTools ++ [aHash] }
          if fname == "execute" && splitlinesCount a.content > 10
              && st5.executionFailureCount == 0 then
            match or.critic a.content with
            | (true, _, _) =>
              let p := scheduleOrUnknown or fname tool.id aHash a st5 pending
              schedLoop or p.1 strikes p.2 rest
            | (false, some revised, critique) =>
              let interv : Msg := ⟨"user", "RED TEAM INTERVENTION: Your code was auto-corrected before execution.\nCritique: " ++ critique ++ "\nExecuting patched version.", "", ""⟩
              let st6 := { st5 with messages := st5.messages ++ [interv] }
              let p := scheduleOrUnknown or fname tool.id aHash { a with content := revised } st6 pending
              schedLoop or p.1 strikes p.2 rest
            | (false, none, critique) =>
              let err : Msg := ⟨"tool", "RED TEAM BLOCK: " ++ critique ++ ". Rewrite the code.",
                fname, tool.id⟩
              schedLoop or
                { st5 with messages := st5.messages ++ [err],
                           toolsRunThisTurn := st5.toolsRunThisTurn ++ [err],
                           lastWasFailure := true } strikes pending rest
          else
            let p := scheduleOrUnknown or fname tool.id aHash a st5 pending
            schedLoop or p.1 strikes p.2 rest

/-- Tools whose results are exempt from worker condensation (line 809). -/
def condenseExempt : List String :=
  ["file_system", "recall", "deep_research", "web_search", "knowledge_base",
   "postgres_admin"]

/-- The meta-intent keywords of lines 689 and 867. -/
def metaKws : List String :=
  ["learn", "skill", "profile", "lesson", "playbook", "record", "save"]

def hasMetaIntent (requestContext : String) : Bool :=
  metaKws.any (fun kw => strContains (pyLower requestContext) kw)

/-- The classification tail of one gathered result (lines 830–887):
`execute` exit codes drive the failure strikes and the success force-stop,
`Error:`-prefixed results drive the three-failures force-stop, a successful
meta tool changes nothing, anything else resets the failure streak. -/
def classifyResult (lastUserContent thoughtContent fname strRes : String)
    (st : LoopState) : LoopState :=
  if fname == "execute" then
    if execClassify strRes ≠ 0 then
      let diagMsg : Msg := ⟨"user", "AUTO-DIAGNOSTIC: The script failed with an unexpected error. Try a different approach or fix the bug. Execution details: " ++ strRes, "", ""⟩
      let alertMsg : Msg := ⟨"user", "SYSTEM ALERT: You have failed 3 times in a row. The task cannot be completed. Provide a final response explaining the situation.", "", ""⟩
      let st := { st with executionFailureCount := st.executionFailureCount + 1,
                          lastWasFailure := true,
                          messages := st.messages ++ [diagMsg] }
      if st.executionFailureCount ≥ 3 then
        { st with messages := st.messages ++ [alertMsg], forceFinalResponse := true }
      else st
    else
      let st := { st with executionFailureCount := 0 }
      if !hasMetaIntent (lastUserContent ++ thoughtContent) then
        { st with forceStop := true }
      else st
  else if pyStartsWith strRes "Error:" || pyStartsWith strRes "Critical Tool Error" then
    let alertMsg : Msg := ⟨"user", "SYSTEM ALERT: You have failed 3 times in a row. Stop trying this approach and try something completely different.", "", ""⟩
    let st := { st with executionFailureCount := st.executionFailureCount + 1,
                        lastWasFailure := true }
    if !st.forceStop then
      if st.executionFailureCount ≥ 3 then
        { st with messages := st.messages ++ [alertMsg], forceStop := true }
      else st
    else st
  else if (fname == "manage_tasks" || fname == "learn_skill"
      || fname == "update_profile") && strContains (pyUpper strRes) "SUCCESS" then
    st
  else { st with executionFailureCount := 0 }

/-- Processing of one gathered tool result (lines 805–887): stringify (an
exception becomes `Error: …`), strip carriage returns, condense oversized
results through the worker, apply the 30000-char truncation envelope, append
the tool message, then run the classification tail. -/
def resultStep (or : DispatchOracles) (lastUserContent thoughtContent : String)
    (st : LoopState) (entry : String × String × String × ToolArgs) : LoopState :=
  let fname := entry.1
  let toolId := entry.2.1
  let strRes0 := match or.runTool fname toolId entry.2.2.2 with
    | .ok s => stripCR s
    | .error e => "Error: " ++ e
  let strRes := if strRes0.length > 4000 && !condenseExempt.contains fname then
      match or.summarize strRes0 with
      | some summary =>
        if pyStripStr summary = "" then strRes0
        else "[EDGE CONDENSED]: " ++ pyStripStr summary
      | none => strRes0
    else strRes0
  let safeRes := if strRes.length > 30000 then
      pyTake 12000 strRes ++ "\n...[TRUNCATED]...\n" ++ pyTakeLast 12000 strRes
    else strRes
  let toolMsg : Msg := ⟨"tool", safeRes, fname, toolId⟩
  classifyResult lastUserContent thoughtContent fname strRes
    { st with messages := st.messages ++ [toolMsg],
              toolsRunThisTurn := st.toolsRunThisTurn ++ [toolMsg] }

/-- The gather/results loop over the turn's scheduled invocations
(lines 803–887). -/
def resultsLoop (or : DispatchOracles) (lastUserContent thoughtContent : String) :
    LoopState → List (String × String × String × ToolArgs) → LoopState
  | st, [] => st
  | st, entry :: rest =>
    resultsLoop or lastUserContent thoughtContent
      (resultStep or lastUserContent thoughtContent st entry) rest

/-- One full tool-dispatch turn (lines 705–887): append the assistant
message, reset `last_was_failure` and the turn-local strike counter, run the
scheduling loop, then gather and process the scheduled invocations. -/
def processTurn (or : DispatchOracles) (lastUserContent thoughtContent : String)
    (assistantContent : String) (calls : List ToolCall) (st : LoopState) : LoopState :=
  let st1 := { st with messages := st.messages ++ [⟨"assistant", assistantContent, "", ""⟩],
                       lastWasFailure := false }
  let sp := schedLoop or st1 0 [] calls
  resultsLoop or lastUserContent thoughtContent sp.1 sp.2

/-- The turn loop (lines 370–374 and 687–703): each trace element is one
turn's (assistant content, planner thought, tool calls).  A turn with
`force_stop` already set does not run; a turn whose responder issued no tool
calls ends the request (line 687's `break`).  The `range(20)` bound
corresponds to traces of length at most 20. -/
def runTurns (or : DispatchOracles) (lastUserContent : String) :
    LoopState → List (String × String × List ToolCall) → LoopState
  | st, [] => st
  | st, (ac, tc, calls) :: rest =>
    if st.forceStop then st
    else if calls = [] then st
    else runTurns or lastUserContent (processTurn or lastUserContent tc ac calls st) rest

/-- Number of executed (scheduled-and-gathered) invocations of tool `f`. -/
def countExec (f : String) (log : List (String × String)) : Nat :=
  (log.filter (fun e => e.1 == f)).length

/-- The all-benign oracle used by concrete traces: critic approves, every
tool returns `"ok"`, summarisation fails, every tool exists. -/
def trivialOracles : DispatchOracles :=
  { critic := fun _ => (true, none, "Approved"),
    runTool := fun _ _ _ => .ok "ok",
    summarize := fun _ => none,
    available := fun _ => true }

/-- The concrete non-mutating tool call used by counterexamples: `recall`
with fixed arguments. -/
def recallCall : ToolCall :=
  ⟨"call_1", "recall", some { canon := "\x7b\"query\": \"x\"\x7d" }⟩

/-! ### Dispatch-loop lemmas -/

theorem classifyResult_log_usage (luc tc fname strRes : String) (st : LoopState) :
    (classifyResult luc tc fname strRes st).executedLog = st.executedLog
    ∧ (classifyResult luc tc fname strRes st).toolUsage = st.toolUsage
    ∧ (classifyResult luc tc fname strRes st).seenTools = st.seenTools := by
  refine ⟨?_, ?_, ?_⟩ <;>
    (simp only [classifyResult]; (repeat' split) <;> rfl)

theorem resultStep_log_usage (or : DispatchOracles) (luc tc : String)
    (st : LoopState) (e : String × String × String × ToolArgs) :
    (resultStep or luc tc st e).executedLog = st.executedLog
    ∧ (resultStep or luc tc st e).toolUsage = st.toolUsage
    ∧ (resultStep or luc tc st e).seenTools = st.seenTools := by
  simp only [resultStep]
  exact classifyResult_log_usage luc tc _ _ _

theorem resultsLoop_log_usage (or : DispatchOracles) (luc tc : String) :
    ∀ pending st,
      (resultsLoop or luc tc st pending).executedLog = st.executedLog
      ∧ (resultsLoop or luc tc st pending).toolUsage = st.toolUsage
      ∧ (resultsLoop or luc tc st pending).seenTools = st.seenTools := by
  intro pending
  induction pending with
  | nil => intro st; exact ⟨rfl, rfl, rfl⟩
  | cons e rest ih =>
    intro st
    have h1 := resultStep_log_usage or luc tc st e
    have h2 := ih (resultStep or luc tc st e)
    simp only [resultsLoop]
    exact ⟨h2.1.trans h1.1, h2.2.1.trans h1.2.1, h2.2.2.trans h1.2.2⟩

theorem countExec_append (f : String) (log : List (String × String))
    (g h : String) :
    countExec f (log ++ [(g, h)])
      = countExec f log + (if g == f then 1 else 0) := by
  simp only [countExec, List.filter_append]
  split <;> simp_all

/-- The cap invariant: executions of every tool are bounded by its issuance
count and by its cap. -/
def capInv (st : LoopState) : Prop :=
  ∀ f, countExec f st.executedLog ≤ st.toolUsage f
    ∧ countExec f st.executedLog ≤ maxUses f

/-- A state whose execution log is unchanged and whose usage counters only
grew keeps the cap invariant. -/
theorem capInv_grow (base st' : LoopState)
    (hlog : st'.executedLog = base.executedLog)
    (husage : ∀ f, base.toolUsage f ≤ st'.toolUsage f)
    (hbase : capInv base) : capInv st' := by
  intro f
  rw [hlog]
  exact ⟨le_trans (hbase f).1 (husage f), (hbase f).2⟩

/-- Scheduling one invocation of `fname` after its usage counter was bumped
within the cap keeps the invariant. -/
theorem scheduleOrUnknown_capInv (or : DispatchOracles)
    (fname id aHash : String) (a : ToolArgs) (st' : LoopState)
    (pend : List (String × String × String × ToolArgs)) (base : LoopState)
    (hlog : st'.executedLog = base.executedLog)
    (husage : ∀ f, st'.toolUsage f
      = if f == fname then base.toolUsage f + 1 else base.toolUsage f)
    (hbase : capInv base)
    (hcap : base.toolUsage fname + 1 ≤ maxUses fname) :
    capInv (scheduleOrUnknown or fname id aHash a st' pend).1 := by
  simp only [scheduleOrUnknown]
  split
  · intro f
    simp only [countExec_append, hlog, husage f]
    rcases hbase f with ⟨h1, h2⟩
    by_cases hf : f = fname
    · subst hf
      simp only [beq_self_eq_true, if_pos]
      omega
    · have hbf : (f == fname) = false := by simpa using hf
      have hbf2 : (fname == f) = false := by simpa using (Ne.symm hf)
      simp only [hbf, hbf2, Bool.false_eq_true, if_false]
      omega
  · intro f
    simp only [hlog, husage f]
    rcases hbase f with ⟨h1, h2⟩
    refine ⟨?_, h2⟩
    split
    · exact le_trans h1 (Nat.le_succ _)
    · exact h1

theorem schedLoop_capInv (or : DispatchOracles) :
    ∀ calls st strikes pending, capInv st →
      capInv (schedLoop or st strikes pending calls).1 := by
  intro calls
  induction calls with
  | nil => intro st strikes pending h; exact h
  | cons tool rest ih =>
    intro st strikes pending h
    obtain ⟨tid, tfname, targs⟩ := tool
    have hgrow : ∀ f,
        st.toolUsage f ≤ if f == tfname then st.toolUsage f + 1 else st.toolUsage f := by
      intro f
      split
      · exact Nat.le_succ _
      · exact le_refl _
    cases targs with
    | none =>
      simp only [schedLoop]
      split
      · exact capInv_grow st _ rfl hgrow h
      · exact ih _ _ _ (capInv_grow st _ rfl hgrow h)
    | some a =>
      simp only [schedLoop]
      split
      · exact capInv_grow st _ rfl hgrow h
      · rename_i hle
        have hcap : st.toolUsage tfname + 1 ≤ maxUses tfname := by
          simp only [trackForget, not_lt] at hle
          simpa using hle
        repeat' split
        all_goals
          first
          | exact ih _ _ _ (capInv_grow st _ rfl hgrow h)
          | exact ih _ _ _
              (scheduleOrUnknown_capInv or tfname tid _ _ _ pending st rfl
                (fun f => rfl) h hcap)

theorem processTurn_capInv (or : DispatchOracles) (luc tc ac : String)
    (calls : List ToolCall) (st : LoopState) (h : capInv st) :
    capInv (processTurn or luc tc ac calls st) := by
  simp only [processTurn]
  set st1 : LoopState :=
    { st with
        messages := st.messages ++ [⟨"assistant", ac, "", ""⟩],
        lastWasFailure := false } with hst1
  have h1 : capInv (schedLoop or st1 0 [] calls).1 :=
    schedLoop_capInv or calls st1 0 []
      (capInv_grow st st1 rfl (fun f => le_refl _) h)
  have h2 := resultsLoop_log_usage or luc tc
    (schedLoop or st1 0 [] calls).2 (schedLoop or st1 0 [] calls).1
  exact capInv_grow _ _ h2.1
    (fun f => le_of_eq (congrFun h2.2.1 f).symm) h1

theorem runTurns_capInv (or : DispatchOracles) (luc : String) :
    ∀ trace st, capInv st → capInv (runTurns or luc st trace) := by
  intro trace
  induction trace with
  | nil => intro st h; exact h
  | cons t rest ih =>
    intro st h
    obtain ⟨ac, tc, calls⟩ := t
    simp only [runTurns]
    split
    · exact h
    · split
      · exact h
      · exact ih _ (processTurn_capInv or luc tc ac calls st h)

theorem maxUses_ge_ten (f : String) : 10 ≤ maxUses f := by
  unfold maxUses
  split
  · exact le_refl _
  · split
    · omega
    · exact le_refl _

/-- **C9**: within a single request the number of executed invocations of
each tool never exceeds its cap — 10 for `deep_research` and `web_search`,
20 for `execute`, 10 for every other tool; the first issuance beyond a
tool's cap is not scheduled for execution (the turn's pending list is left
as it was and the rest of the turn's calls are skipped) but replaced by a
user-role `SYSTEM ALERT` message with `force_stop` set; and a set
`force_stop` prevents any further turn from running. -/
theorem usage_caps (or : DispatchOracles) (luc : String) (messages0 : List Msg)
    (trace : List (String × String × List ToolCall)) :
    (∀ f, countExec f (runTurns or luc (initState messages0) trace).executedLog
        ≤ maxUses f)
    ∧ (∀ (st : LoopState) (tool : ToolCall) (rest : List ToolCall)
        (strikes : Nat) (pending : List (String × String × String × ToolArgs)),
        maxUses tool.fname ≤ st.toolUsage tool.fname →
        (schedLoop or st strikes pending (tool :: rest)).2 = pending
        ∧ (schedLoop or st strikes pending (tool :: rest)).1.forceStop = true
        ∧ (schedLoop or st strikes pending (tool :: rest)).1.messages
            = st.messages ++ [usageAlertMsg tool.fname])
    ∧ (∀ (st : LoopState) (t : String × String × List ToolCall)
        (rest : List (String × String × List ToolCall)),
        st.forceStop = true → runTurns or luc st (t :: rest) = st)
    ∧ (maxUses "deep_research" = 10 ∧ maxUses "web_search" = 10
       ∧ maxUses "execute" = 20
       ∧ ∀ f, f ≠ "deep_research" → f ≠ "web_search" → f ≠ "execute" →
           maxUses f = 10) := by
  refine ⟨?_, ?_, ?_, by decide, by decide, by decide, ?_⟩
  · intro f
    have h := runTurns_capInv or luc trace (initState messages0)
      (fun g => ⟨Nat.zero_le _, Nat.zero_le _⟩)
    exact (h f).2
  · intro st tool rest strikes pending hcap
    obtain ⟨tid, tfname, targs⟩ := tool
    have hcap2 : maxUses tfname ≤ st.toolUsage tfname := hcap
    clear hcap
    simp only [schedLoop]
    split
    · exact ⟨rfl, rfl, rfl⟩
    · rename_i hc
      exfalso
      apply hc
      show maxUses tfname <
        (if (tfname == tfname) = true then st.toolUsage tfname + 1
         else st.toolUsage tfname)
      simp only [beq_self_eq_true, if_pos]
      omega
  · intro st t rest hfs
    obtain ⟨a, b, c⟩ := t
    simp [runTurns, hfs]
  · intro f h1 h2 h3
    have b1 : (f == "deep_research") = false := by simpa using h1
    have b2 : (f == "web_search") = false := by simpa using h2
    have b3 : (f == "execute") = false := by simpa using h3
    simp [maxUses, b1, b2, b3]

/-- Witness for C9 at a concrete input: the 11th issuance of `recall` (cap
10) is replaced by the alert and sets `force_stop`. -/
theorem usage_caps_witness :
    (schedLoop trivialOracles
        { initState [] with toolUsage := fun _ => 10 } 0 [] [recallCall]).1.forceStop
      = true
    ∧ (schedLoop trivialOracles
        { initState [] with toolUsage := fun _ => 10 } 0 [] [recallCall]).2 = [] := by
  have h := (usage_caps trivialOracles "" [] []).2.1
    { initState [] with toolUsage := fun _ => 10 } recallCall [] 0 [] (by decide)
  exact ⟨h.2.1, h.1⟩

/-- The three-turn trace in which the model repeats the identical `recall`
call once per turn. -/
def redundancyTrace : List (String × String × List ToolCall) :=
  [("", "", [recallCall]), ("", "", [recallCall]), ("", "", [recallCall])]

/-- **C2 counterexample**: with the identical non-mutating `recall` call
issued once per turn for three turns (no mutating tool in between), the
second and third issuances are replaced by redundancy-alert tool results and
only the first is executed — but `force_stop` stays `false`, because the
strike counter `redundancy_strikes` is reset to 0 at every turn (line 707),
so the single per-turn strike never reaches 3.  The claim's "the reasoning
loop force-stops" is false on this input. -/
theorem redundancy_three_turns_not_stopped :
    (runTurns trivialOracles "" (initState []) redundancyTrace).forceStop = false
    ∧ countExec "recall"
        (runTurns trivialOracles "" (initState []) redundancyTrace).executedLog = 1
    ∧ (runTurns trivialOracles "" (initState []) redundancyTrace).messages.get? 3
        = some (redundancyMsg recallCall)
    ∧ (runTurns trivialOracles "" (initState []) redundancyTrace).messages.get? 5
        = some (redundancyMsg recallCall) :=
  ⟨rfl, rfl, rfl, rfl⟩

/-! ### Step equations for the scheduling loop -/

theorem schedLoop_nil (or : DispatchOracles) (st : LoopState) (strikes : Nat)
    (pending : List (String × String × String × ToolArgs)) :
    schedLoop or st strikes pending [] = (st, pending) := rfl

/-- One scheduling step on a fresh (unseen) valid non-`execute` invocation
of an available tool within its cap: the invocation is scheduled and the
loop continues on the remaining calls. -/
theorem schedLoop_step_fresh (or : DispatchOracles) (st : LoopState)
    (strikes : Nat) (pending : List (String × String × String × ToolArgs))
    (tid tfname : String) (a : ToolArgs) (rest : List ToolCall)
    (hseen : st.seenTools.contains (tfname ++ ":" ++ a.canon) = false)
    (hmut : isMutating tfname a = false)
    (hexec : (tfname == "execute") = false)
    (havail : or.available tfname = true)
    (hcap : st.toolUsage tfname + 1 ≤ maxUses tfname) :
    schedLoop or st strikes pending (⟨tid, tfname, some a⟩ :: rest)
      = schedLoop or
          { st with
              rawToolsCalled := st.rawToolsCalled ++ [tfname],
              toolUsage := fun g => if g == tfname then st.toolUsage g + 1
                else st.toolUsage g,
              forgetWasCalled := trackForgetFlag tfname (some a) st.forgetWasCalled,
              sandboxCacheValid := if isSandboxMutation tfname a then false
                else st.sandboxCacheValid,
              seenTools := st.seenTools ++ [tfname ++ ":" ++ a.canon],
              executedLog := st.executedLog ++ [(tfname, tfname ++ ":" ++ a.canon)] }
          strikes (pending ++ [(tfname, tid, tfname ++ ":" ++ a.canon, a)]) rest := by
  simp only [schedLoop]
  split
  · rename_i hgt
    exfalso
    have hgt2 : st.toolUsage tfname + 1 > maxUses tfname := by
      simpa [trackForget] using hgt
    omega
  · have hnm : ¬ (tfname ++ ":" ++ a.canon) ∈ st.seenTools := by simpa using hseen
    simp [trackForget, scheduleOrUnknown, hmut, hseen, hexec, havail, hnm]

/-- One scheduling step on a repeated (already-seen) non-mutating,
non-`system_utility` invocation within its cap: the invocation is replaced
by the redundancy alert, the strike counter increments (reaching three sets
`force_stop`), and the loop continues. -/
theorem schedLoop_step_redundant (or : DispatchOracles) (st : LoopState)
    (strikes : Nat) (pending : List (String × String × String × ToolArgs))
    (tid tfname : String) (a : ToolArgs) (rest : List ToolCall)
    (hseen : st.seenTools.contains (tfname ++ ":" ++ a.canon) = true)
    (hmut : isMutating tfname a = false)
    (hsys : (tfname != "system_utility") = true)
    (hcap : st.toolUsage tfname + 1 ≤ maxUses tfname) :
    schedLoop or st strikes pending (⟨tid, tfname, some a⟩ :: rest)
      = schedLoop or
          (if strikes + 1 ≥ 3 then
            { st with
                rawToolsCalled := st.rawToolsCalled ++ [tfname],
                toolUsage := fun g => if g == tfname then st.toolUsage g + 1
                  else st.toolUsage g,
                forgetWasCalled := trackForgetFlag tfname (some a) st.forgetWasCalled,
                sandboxCacheValid := if isSandboxMutation tfname a then false
                  else st.sandboxCacheValid,
                messages := st.messages ++ [redundancyMsg ⟨tid, tfname, some a⟩],
                toolsRunThisTurn := st.toolsRunThisTurn ++ [redundancyMsg ⟨tid, tfname, some a⟩],
                forceStop := true }
          else
            { st with
                rawToolsCalled := st.rawToolsCalled ++ [tfname],
                toolUsage := fun g => if g == tfname then st.toolUsage g + 1
                  else st.toolUsage g,
                forgetWasCalled := trackForgetFlag tfname (some a) st.forgetWasCalled,
                sandboxCacheValid := if isSandboxMutation tfname a then false
                  else st.sandboxCacheValid,
                messages := st.messages ++ [redundancyMsg ⟨tid, tfname, some a⟩],
                toolsRunThisTurn := st.toolsRunThisTurn ++ [redundancyMsg ⟨tid, tfname, some a⟩] })
          (strikes + 1) pending rest := by
  simp only [schedLoop]
  split
  · rename_i hgt
    exfalso
    have hgt2 : st.toolUsage tfname + 1 > maxUses tfname := by
      simpa [trackForget] using hgt
    omega
  · have hm : (tfname ++ ":" ++ a.canon) ∈ st.seenTools := by simpa using hseen
    have hsys2 : ¬ tfname = "system_utility" := by simpa using hsys
    simp [trackForget, hmut, hm, hsys2]

theorem classifyResult_nonexec (luc tc fname strRes : String) (st : LoopState)
    (hexec : (fname == "execute") = false)
    (hfail : st.executionFailureCount ≤ 1) :
    (classifyResult luc tc fname strRes st).forceStop = st.forceStop
    ∧ (classifyResult luc tc fname strRes st).messages = st.messages := by
  refine ⟨?_, ?_⟩ <;>
  · simp only [classifyResult, hexec, Bool.false_eq_true, if_false]
    repeat' split
    all_goals first | rfl | (exfalso; omega)

theorem resultStep_nonexec (or : DispatchOracles) (luc tc : String)
    (st : LoopState) (e : String × String × String × ToolArgs)
    (hexec : (e.1 == "execute") = false)
    (hfail : st.executionFailureCount ≤ 1) :
    ∃ res,
      (resultStep or luc tc st e).messages
        = st.messages ++ [⟨"tool", res, e.1, e.2.1⟩]
      ∧ (resultStep or luc tc st e).forceStop = st.forceStop := by
  simp only [resultStep]
  refine ⟨_, (classifyResult_nonexec luc tc e.1 _ _ hexec ?_).2,
    (classifyResult_nonexec luc tc e.1 _ _ hexec ?_).1⟩ <;> exact hfail

theorem runTurns_step (or : DispatchOracles) (luc ac tc : String)
    (st : LoopState) (calls : List ToolCall)
    (rest : List (String × String × List ToolCall))
    (hfs : st.forceStop = false) (hne : calls ≠ []) :
    runTurns or luc st ((ac, tc, calls) :: rest)
      = runTurns or luc (processTurn or luc tc ac calls st) rest := by
  simp [runTurns, hfs, hne]

/-- A turn whose only call is a repeat of an already-seen non-mutating
invocation: the call is replaced by the redundancy alert, nothing is
scheduled, and the loop does not force-stop (the turn-local strike counter
restarts at 0, so one strike never reaches 3). -/
theorem processTurn_redundant_eq (or : DispatchOracles)
    (luc tc ac tid tfname : String) (a : ToolArgs) (st : LoopState)
    (hseen : st.seenTools.contains (tfname ++ ":" ++ a.canon) = true)
    (hmut : isMutating tfname a = false)
    (hsys : (tfname != "system_utility") = true)
    (hcap : st.toolUsage tfname + 1 ≤ maxUses tfname) :
    processTurn or luc tc ac [⟨tid, tfname, some a⟩] st
      = { st with
          messages := st.messages ++
            [⟨"assistant", ac, "", ""⟩, redundancyMsg ⟨tid, tfname, some a⟩],
          lastWasFailure := false,
          rawToolsCalled := st.rawToolsCalled ++ [tfname],
          toolUsage := fun g => if g == tfname then st.toolUsage g + 1
            else st.toolUsage g,
          forgetWasCalled := trackForgetFlag tfname (some a) st.forgetWasCalled,
          sandboxCacheValid := if isSandboxMutation tfname a then false
            else st.sandboxCacheValid,
          toolsRunThisTurn := st.toolsRunThisTurn ++ [redundancyMsg ⟨tid, tfname, some a⟩] } := by
  simp only [processTurn]
  rw [schedLoop_step_redundant or
    { st with messages := st.messages ++ [⟨"assistant", ac, "", ""⟩],
              lastWasFailure := false } 0 [] tid tfname a [] hseen hmut hsys hcap]
  simp [schedLoop, resultsLoop]

theorem resultsLoop_single_fields (or : DispatchOracles) (luc tc : String)
    (stA : LoopState) (fname tid aH : String) (a : ToolArgs)
    (hexec : (fname == "execute") = false)
    (hfail : stA.executionFailureCount ≤ 1) :
    ∃ res,
      (resultsLoop or luc tc stA [(fname, tid, aH, a)]).messages
        = stA.messages ++ [⟨"tool", res, fname, tid⟩]
      ∧ (resultsLoop or luc tc stA [(fname, tid, aH, a)]).forceStop = stA.forceStop
      ∧ (resultsLoop or luc tc stA [(fname, tid, aH, a)]).executedLog = stA.executedLog
      ∧ (resultsLoop or luc tc stA [(fname, tid, aH, a)]).toolUsage = stA.toolUsage
      ∧ (resultsLoop or luc tc stA [(fname, tid, aH, a)]).seenTools = stA.seenTools := by
  simp only [resultsLoop]
  obtain ⟨res, h1, h2⟩ := resultStep_nonexec or luc tc stA (fname, tid, aH, a) hexec hfail
  have h3 := resultStep_log_usage or luc tc stA (fname, tid, aH, a)
  exact ⟨res, h1, h2, h3.1, h3.2.1, h3.2.2⟩

/-- A turn whose only call is a fresh valid non-`execute` invocation of an
available tool within its cap: the invocation is executed, its (possibly
condensed and truncated) result is appended as a tool message, its `a_hash`
enters the SeenSet, and `force_stop` is untouched. -/
theorem processTurn_fresh_fields (or : DispatchOracles)
    (luc tc ac tid tfname : String) (a : ToolArgs) (st : LoopState)
    (hseen : st.seenTools.contains (tfname ++ ":" ++ a.canon) = false)
    (hmut : isMutating tfname a = false)
    (hexec : (tfname == "execute") = false)
    (havail : or.available tfname = true)
    (hcap : st.toolUsage tfname + 1 ≤ maxUses tfname)
    (hfail : st.executionFailureCount ≤ 1) :
    ∃ res,
      (processTurn or luc tc ac [⟨tid, tfname, some a⟩] st).messages
        = st.messages ++ [⟨"assistant", ac, "", ""⟩, ⟨"tool", res, tfname, tid⟩]
      ∧ (processTurn or luc tc ac [⟨tid, tfname, some a⟩] st).forceStop = st.forceStop
      ∧ (processTurn or luc tc ac [⟨tid, tfname, some a⟩] st).seenTools
          = st.seenTools ++ [tfname ++ ":" ++ a.canon]
      ∧ (processTurn or luc tc ac [⟨tid, tfname, some a⟩] st).executedLog
          = st.executedLog ++ [(tfname, tfname ++ ":" ++ a.canon)]
      ∧ (processTurn or luc tc ac [⟨tid, tfname, some a⟩] st).toolUsage
          = fun g => if g == tfname then st.toolUsage g + 1 else st.toolUsage g := by
  simp only [processTurn]
  rw [schedLoop_step_fresh or
    { st with
      messages := st.messages ++ [⟨"assistant", ac, "", ""⟩]
      lastWasFailure := false }
    0 [] tid tfname a [] hseen hmut hexec havail hcap, schedLoop_nil]
  obtain ⟨res, h1, h2, h3, h4, h5⟩ := resultsLoop_single_fields or luc tc
    { messages := st.messages ++ [⟨"assistant", ac, "", ""⟩]
      seenTools := st.seenTools ++ [tfname ++ ":" ++ a.canon]
      toolUsage := fun g => if g == tfname then st.toolUsage g + 1 else st.toolUsage g
      forceStop := st.forceStop
      forceFinalResponse := st.forceFinalResponse
      executionFailureCount := st.executionFailureCount
      lastWasFailure := false
      forgetWasCalled := trackForgetFlag tfname (some a) st.forgetWasCalled
      sandboxCacheValid := if isSandboxMutation tfname a then false
        else st.sandboxCacheValid
      toolsRunThisTurn := st.toolsRunThisTurn
      rawToolsCalled := st.rawToolsCalled ++ [tfname]
      executedLog := st.executedLog ++ [(tfname, tfname ++ ":" ++ a.canon)] }
    tfname tid (tfname ++ ":" ++ a.canon) a hexec hfail
  exact ⟨res, h1.trans (by simp), h2, h5, h3, h4⟩

/-- C2 (amended).  If the model issues the identical non-mutating,
non-`system_utility`, non-`execute` tool call on three successive turns,
only the first issuance is executed; the second and third are each replaced
by a redundancy-alert tool result and are not executed — but the loop does
NOT force-stop, because `redundancy_strikes` is reset to 0 at the start of
every turn (agent.py line 707), so a single per-turn strike never reaches
the threshold of 3. -/
theorem redundancy_across_turns (or : DispatchOracles) (luc tc ac : String)
    (messages0 : List Msg) (tid tfname : String) (a : ToolArgs)
    (hmut : isMutating tfname a = false)
    (hsys : (tfname != "system_utility") = true)
    (hexec : (tfname == "execute") = false)
    (havail : or.available tfname = true) :
    ∃ res,
      (runTurns or luc (initState messages0)
          [(ac, tc, [⟨tid, tfname, some a⟩]),
           (ac, tc, [⟨tid, tfname, some a⟩]),
           (ac, tc, [⟨tid, tfname, some a⟩])]).messages
        = messages0 ++
            [⟨"assistant", ac, "", ""⟩, ⟨"tool", res, tfname, tid⟩,
             ⟨"assistant", ac, "", ""⟩, redundancyMsg ⟨tid, tfname, some a⟩,
             ⟨"assistant", ac, "", ""⟩, redundancyMsg ⟨tid, tfname, some a⟩]
      ∧ (runTurns or luc (initState messages0)
          [(ac, tc, [⟨tid, tfname, some a⟩]),
           (ac, tc, [⟨tid, tfname, some a⟩]),
           (ac, tc, [⟨tid, tfname, some a⟩])]).forceStop = false
      ∧ (runTurns or luc (initState messages0)
          [(ac, tc, [⟨tid, tfname, some a⟩]),
           (ac, tc, [⟨tid, tfname, some a⟩]),
           (ac, tc, [⟨tid, tfname, some a⟩])]).executedLog
        = [(tfname, tfname ++ ":" ++ a.canon)]
      ∧ countExec tfname (runTurns or luc (initState messages0)
          [(ac, tc, [⟨tid, tfname, some a⟩]),
           (ac, tc, [⟨tid, tfname, some a⟩]),
           (ac, tc, [⟨tid, tfname, some a⟩])]).executedLog = 1 := by
  have hseen0 : (initState messages0).seenTools.contains
      (tfname ++ ":" ++ a.canon) = false := rfl
  have hcap0 : (initState messages0).toolUsage tfname + 1 ≤ maxUses tfname :=
    Nat.le_trans
      (show (initState messages0).toolUsage tfname + 1 ≤ 10 by norm_num [initState])
      (maxUses_ge_ten tfname)
  obtain ⟨res, hm1, hf1, hs1, hl1, hu1⟩ :=
    processTurn_fresh_fields or luc tc ac tid tfname a (initState messages0)
      hseen0 hmut hexec havail hcap0 (Nat.zero_le 1)
  set st1 := processTurn or luc tc ac [⟨tid, tfname, some a⟩] (initState messages0)
    with hst1
  have hfs1 : st1.forceStop = false := hf1.trans rfl
  have hseen1 : st1.seenTools.contains (tfname ++ ":" ++ a.canon) = true := by
    rw [hs1]; simp [initState]
  have hu1v : st1.toolUsage tfname = 1 := by
    rw [hu1]; simp [initState]
  have hcap1 : st1.toolUsage tfname + 1 ≤ maxUses tfname := by
    rw [hu1v]
    exact Nat.le_trans (show 1 + 1 ≤ 10 by decide) (maxUses_ge_ten tfname)
  have h2 := processTurn_redundant_eq or luc tc ac tid tfname a st1 hseen1 hmut hsys hcap1
  set st2 := processTurn or luc tc ac [⟨tid, tfname, some a⟩] st1 with hst2
  have hm2 : st2.messages = st1.messages ++
      [⟨"assistant", ac, "", ""⟩, redundancyMsg ⟨tid, tfname, some a⟩] := by rw [h2]
  have hfs2 : st2.forceStop = false := by rw [h2]; exact hfs1
  have hseen2 : st2.seenTools.contains (tfname ++ ":" ++ a.canon) = true := by
    rw [h2]; exact hseen1
  have hu2v : st2.toolUsage tfname = 2 := by
    rw [h2]; simp [hu1v]
  have hcap2 : st2.toolUsage tfname + 1 ≤ maxUses tfname := by
    rw [hu2v]
    exact Nat.le_trans (show 2 + 1 ≤ 10 by decide) (maxUses_ge_ten tfname)
  have hl2 : st2.executedLog = st1.executedLog := by rw [h2]
  have h3 := processTurn_redundant_eq or luc tc ac tid tfname a st2 hseen2 hmut hsys hcap2
  have hne : ([⟨tid, tfname, some a⟩] : List ToolCall) ≠ [] := by simp
  rw [runTurns_step or luc ac tc (initState messages0) [⟨tid, tfname, some a⟩]
      [(ac, tc, [⟨tid, tfname, some a⟩]), (ac, tc, [⟨tid, tfname, some a⟩])] rfl hne,
    ← hst1,
    runTurns_step or luc ac tc st1 [⟨tid, tfname, some a⟩]
      [(ac, tc, [⟨tid, tfname, some a⟩])] hfs1 hne,
    ← hst2,
    runTurns_step or luc ac tc st2 [⟨tid, tfname, some a⟩] [] hfs2 hne,
    h3]
  simp only [runTurns]
  refine ⟨res, ?_, ?_, ?_, ?_⟩
  · show st2.messages ++
        [⟨"assistant", ac, "", ""⟩, redundancyMsg ⟨tid, tfname, some a⟩]
      = messages0 ++
          [⟨"assistant", ac, "", ""⟩, ⟨"tool", res, tfname, tid⟩,
           ⟨"assistant", ac, "", ""⟩, redundancyMsg ⟨tid, tfname, some a⟩,
           ⟨"assistant", ac, "", ""⟩, redundancyMsg ⟨tid, tfname, some a⟩]
    rw [hm2, hm1]
    simp [initState]
  · exact hfs2
  · show st2.executedLog = [(tfname, tfname ++ ":" ++ a.canon)]
    rw [hl2, hl1]
    simp [initState]
  · show countExec tfname st2.executedLog = 1
    rw [hl2, hl1]
    simp [initState, countExec]

/-- Witness for the amended C2 theorem: the concrete `recall` call satisfies
every hypothesis, and over the three-turn trace it is executed exactly once
with the loop never force-stopping. -/
theorem redundancy_across_turns_witness :
    isMutating "recall" { canon := "\x7b\"query\": \"x\"\x7d" } = false
    ∧ (("recall" != "system_utility") = true)
    ∧ (("recall" == "execute") = false)
    ∧ trivialOracles.available "recall" = true
    ∧ ∃ res,
        (runTurns trivialOracles "" (initState []) redundancyTrace).messages
          = [⟨"assistant", "", "", ""⟩, ⟨"tool", res, "recall", "call_1"⟩,
             ⟨"assistant", "", "", ""⟩, redundancyMsg recallCall,
             ⟨"assistant", "", "", ""⟩, redundancyMsg recallCall]
        ∧ (runTurns trivialOracles "" (initState []) redundancyTrace).forceStop = false
        ∧ (runTurns trivialOracles "" (initState []) redundancyTrace).executedLog
          = [("recall", "recall" ++ ":" ++ "\x7b\"query\": \"x\"\x7d")]
        ∧ countExec "recall"
            (runTurns trivialOracles "" (initState []) redundancyTrace).executedLog
          = 1 :=
  ⟨rfl, rfl, rfl, rfl,
    redundancy_across_turns trivialOracles "" "" "" [] "call_1" "recall"
      { canon := "\x7b\"query\": \"x\"\x7d" } rfl rfl rfl rfl⟩

end GhostVerify
